import Mathlib

/-!
Verification of the swipetype-core gesture recognizer (C++ sources) against
its natural-language specification.

Shallow-embedding conventions, used consistently below:

* C++ `float`/`double` values are modelled as exact rationals (`ℚ`);
  decimal literals in the source (`0.5f`, `0.01f`, `0.1f`, ...) are modelled
  by their decimal value.  Where a rounding question could change a result
  it is noted at the definition.
* `std::sqrt` is not rational, so every definition that calls it is
  parameterised by a function `sqrtQ : ℚ → ℚ`.  Theorems either hold for
  every choice of `sqrtQ`, or take an order-reflection hypothesis that the
  real square root satisfies; concrete evaluations instantiate `sqrtQ` with
  a monotone function such as the identity.
* C++ `std::string` (and dictionary buffers) are byte sequences, modelled
  as `List ℕ`; machine integers are `ℕ`/`ℤ` (all parsed fields are
  unsigned and bounded well below overflow).
* `FLT_MAX` is the exact rational value of the IEEE-754 single-precision
  maximum; the source uses it as an "infinite" sentinel with `< FLT_MAX`
  guards, which are translated verbatim.
* Imperative loops become structural recursion; the one loop whose index
  can stand still (`$1`-style resampling, which re-inserts points) gets a
  fuel argument large enough to cover every terminating run.
-/

namespace Swipetype

/-- Exact rational value of `FLT_MAX` (IEEE-754 binary32 maximum,
`(2^24 - 1) * 2^104`), used as the "infinity" sentinel exactly as the
C++ sources use it. -/
def fltMax : ℚ := (2 ^ 24 - 1) * 2 ^ 104

/-- Model of `std::tolower` on a byte (C locale): ASCII `A`–`Z` map to
`a`–`z`, everything else is unchanged. -/
def toLowerByte (b : ℕ) : ℕ := if 65 ≤ b ∧ b ≤ 90 then b + 32 else b

/-- Model of `static_cast<int64_t>(float)`: truncation toward zero. -/
def truncQ (q : ℚ) : ℤ := if 0 ≤ q then ⌊q⌋ else -⌊-q⌋

/-! Constants from `SwipeTypeTypes.h`. -/

/-- Constant `RESAMPLE_COUNT = 64`. -/
def RESAMPLE_COUNT : ℕ := 64

/-- Constant `MIN_POINT_DISTANCE_DP = 2.0f`. -/
def MIN_POINT_DISTANCE_DP : ℚ := 2

/-- Constant ` DTW_BANDWIDTH_RATIO = 0.10f`.  Modelled by the decimal value
`1/10`; the float stored in the binary is `13421773/2^27 ≈ 0.1000000015`,
and both give the same band width (their products with 64 have the same
ceiling, 7). -/
def DTW_BANDWIDTH_RATIO : ℚ := 1 / 10

/-- Constant `FREQUENCY_WEIGHT = 0.30f`. -/
def FREQUENCY_WEIGHT : ℚ := 3 / 10

/-- Constant `MAX_MAX_CANDIDATES = 20`. -/
def MAX_MAX_CANDIDATES : ℤ := 20

/-- Constant `LENGTH_FILTER_TOLERANCE = 3.0f`. -/
def LENGTH_FILTER_TOLERANCE : ℚ := 3

/-- Constant `MAX_DTW_FLOOR = 3.0f`. -/
def MAX_DTW_FLOOR : ℚ := 3

/-- Constant `DICT_MAGIC = 0x474C4944`. -/
def DICT_MAGIC : ℕ := 0x474C4944

/-- Constant `DICT_VERSION = 1`. -/
def DICT_VERSION : ℕ := 1

/-- Constant `DICT_HEADER_SIZE = 32`. -/
def DICT_HEADER_SIZE : ℕ := 32

/-- Constant `MAX_WORD_LENGTH = 64`. -/
def MAX_WORD_LENGTH : ℕ := 64

/-- Constant `SOURCE_MAIN_DICT = 0x01`. -/
def SOURCE_MAIN_DICT : ℕ := 0x01

/-! Data model (`GesturePoint.h`, `GesturePath.h`, `KeyboardLayout.h`,
`GestureCandidate.h`, `DictionaryLoader.h`). -/

/-- Raw touch point (`GesturePoint`): dp coordinates plus a millisecond
timestamp. -/
structure GesturePoint where
  x : ℚ := 0
  y : ℚ := 0
  timestamp : ℤ := 0
deriving DecidableEq, Repr, Inhabited

/-- Normalized point (`NormalizedPoint`): coordinates and time in `[0,1]`
after bounding-box normalization. -/
structure NormalizedPoint where
  x : ℚ := 0
  y : ℚ := 0
  t : ℚ := 0
deriving DecidableEq, Repr, Inhabited

/-- Raw gesture path (`RawGesturePath`). -/
structure RawGesturePath where
  points : List GesturePoint := []
deriving DecidableEq, Repr, Inhabited

/-- Model of `RawGesturePath::isEmpty`: fewer than `MIN_GESTURE_POINTS = 2`
points. -/
def RawGesturePath.isEmpty (p : RawGesturePath) : Bool := p.points.length < 2

/-- Normalized gesture path (`GesturePath`). -/
structure GesturePath where
  points : List NormalizedPoint := []
  aspectRatio : ℚ := 1
  totalArcLength : ℚ := 0
  startKeyIndex : ℤ := -1
  endKeyIndex : ℤ := -1
deriving DecidableEq, Repr, Inhabited

/-- Model of `GesturePath::isValid`: exactly 64 points (the header
hard-codes 64). -/
def GesturePath.isValid (p : GesturePath) : Bool := p.points.length = 64

/-- Key descriptor (`KeyDescriptor`): label (debug only), code point
(−1 for non-character keys), center and size in dp. -/
structure KeyDescriptor where
  label : List ℕ := []
  codePoint : ℤ := -1
  centerX : ℚ := 0
  centerY : ℚ := 0
  width : ℚ := 0
  height : ℚ := 0
deriving DecidableEq, Repr, Inhabited

/-- Model of `KeyDescriptor::isCharacterKey`. -/
def KeyDescriptor.isCharacterKey (k : KeyDescriptor) : Bool := 0 ≤ k.codePoint

/-- Keyboard layout (`KeyboardLayout`). -/
structure KeyboardLayout where
  languageTag : List ℕ := []
  keys : List KeyDescriptor := []
  layoutWidth : ℚ := 0
  layoutHeight : ℚ := 0
deriving DecidableEq, Repr, Inhabited

/-- Loop body of `KeyboardLayout::findNearestKey` (`AdjacencyMap.cpp`):
fold over the indexed keys keeping the first strictly-smaller distance;
non-character keys are skipped.  `sqrtQ` stands for `std::sqrt`. -/
def findNearestKeyAux (sqrtQ : ℚ → ℚ) (x y : ℚ) :
    List (ℕ × KeyDescriptor) → ℤ → ℚ → ℤ
  | [], bestIndex, _ => bestIndex
  | (i, key) :: rest, bestIndex, bestDist =>
    if key.isCharacterKey then
      let dist := sqrtQ ((key.centerX - x) * (key.centerX - x) +
                         (key.centerY - y) * (key.centerY - y))
      if dist < bestDist then findNearestKeyAux sqrtQ x y rest i dist
      else findNearestKeyAux sqrtQ x y rest bestIndex bestDist
    else findNearestKeyAux sqrtQ x y rest bestIndex bestDist

/-- Model of `KeyboardLayout::findNearestKey`: Euclidean distance to
character-key centers, ties kept at the smaller index (strict `<` update),
`-1` if no character key exists. -/
def KeyboardLayout.findNearestKey (sqrtQ : ℚ → ℚ) (l : KeyboardLayout)
    (x y : ℚ) : ℤ :=
  findNearestKeyAux sqrtQ x y l.keys.enum (-1) fltMax

/-- ASCII lowercasing of a code point as done inside
`KeyboardLayout::findKeyByCodePoint`. -/
def lowerCp (cp : ℤ) : ℤ := if 65 ≤ cp ∧ cp ≤ 90 then cp - 65 + 97 else cp

/-- Loop of `KeyboardLayout::findKeyByCodePoint`: first key whose (ASCII
case-folded) code point matches. -/
def findKeyByCodePointAux (searchCp : ℤ) : List (ℕ × KeyDescriptor) → ℤ
  | [] => -1
  | (i, key) :: rest =>
    if lowerCp key.codePoint = searchCp then (i : ℤ)
    else findKeyByCodePointAux searchCp rest

/-- Model of `KeyboardLayout::findKeyByCodePoint`. -/
def KeyboardLayout.findKeyByCodePoint (l : KeyboardLayout) (cp : ℤ) : ℤ :=
  findKeyByCodePointAux (lowerCp cp) l.keys.enum

/-- Model of `KeyboardLayout::isValid`: non-empty key list, positive
dimensions, at least one character key. -/
def KeyboardLayout.isValid (l : KeyboardLayout) : Bool :=
  ¬ l.keys.isEmpty ∧ 0 < l.layoutWidth ∧ 0 < l.layoutHeight ∧
    l.keys.any fun k => k.isCharacterKey

/-- Word candidate (`GestureCandidate`). -/
structure GestureCandidate where
  word : List ℕ := []
  confidence : ℚ := 0
  sourceFlags : ℕ := 0
  dtwScore : ℚ := 0
  frequencyScore : ℚ := 0
deriving DecidableEq, Repr, Inhabited

/-- Scoring configuration (`ScoringConfig`), with the defaults from
`SwipeTypeTypes.h`. -/
structure ScoringConfig where
  resampleCount : ℕ := RESAMPLE_COUNT
  minPointDistance : ℚ := MIN_POINT_DISTANCE_DP
  dtwBandwidthRatio : ℚ := DTW_BANDWIDTH_RATIO
  frequencyWeight : ℚ := FREQUENCY_WEIGHT
  maxCandidatesEvaluated : ℤ := MAX_MAX_CANDIDATES
  lengthFilterTolerance : ℚ := LENGTH_FILTER_TOLERANCE
  maxDTWFloor : ℚ := MAX_DTW_FLOOR
deriving DecidableEq, Repr, Inhabited

/-- The default configuration (all fields at their declared defaults). -/
def defaultConfig : ScoringConfig := {}

/-- Error codes (`ErrorCode`). -/
inductive ErrorCode where
  | NONE
  | DICT_NOT_FOUND
  | DICT_CORRUPT
  | DICT_VERSION_MISMATCH
  | LAYOUT_INVALID
  | PATH_TOO_SHORT
  | ENGINE_NOT_INITIALIZED
  | OUT_OF_MEMORY
deriving DecidableEq, Repr, Inhabited

/-! Dictionary store (`DictionaryLoader.cpp`).  Byte-level parsing of the
binary lexicon; bitwise or/shift combinations of distinct bytes are
translated to their arithmetic value. -/

/-- Dictionary entry (`DictionaryEntry`). -/
structure DictionaryEntry where
  word : List ℕ := []
  frequency : ℕ := 0
  flags : ℕ := 0
deriving DecidableEq, Repr, Inhabited

/-- Dictionary header (`DictionaryHeader`). -/
structure DictionaryHeader where
  magic : ℕ := 0
  version : ℕ := 0
  flags : ℕ := 0
  entryCount : ℕ := 0
  languageTag : List ℕ := []
deriving DecidableEq, Repr, Inhabited

/-- State of `DictionaryLoader::Impl`. -/
structure DictImpl where
  entries : List DictionaryEntry := []
  header : DictionaryHeader := {}
  maxFrequency : ℕ := 0
  lastError : ErrorCode := ErrorCode.NONE
  loaded : Bool := false
deriving DecidableEq, Repr, Inhabited

/-- Model of `readU16LE`: two little-endian bytes. -/
def readU16LE (buf : List ℕ) (off : ℕ) : ℕ :=
  buf.getD off 0 + buf.getD (off + 1) 0 * 256

/-- Model of `readU32LE`: four little-endian bytes. -/
def readU32LE (buf : List ℕ) (off : ℕ) : ℕ :=
  buf.getD off 0 + buf.getD (off + 1) 0 * 256 +
    buf.getD (off + 2) 0 * 65536 + buf.getD (off + 3) 0 * 16777216

/-- Entry-parsing loop of `DictionaryLoader::Impl::parseFromBuffer`
(lines 79–106): recursion over the remaining entry count, carrying the
read position, the entries parsed so far, and the running maximum
frequency.  On failure the partially accumulated entries and maximum are
returned unchanged, exactly as the C++ leaves them in `pImpl`. -/
def parseEntriesLoop (data : List ℕ) :
    ℕ → ℕ → List DictionaryEntry → ℕ →
    Bool × List DictionaryEntry × ℕ × ErrorCode
  | 0, _, entries, maxFreq => (true, entries, maxFreq, ErrorCode.NONE)
  | n + 1, pos, entries, maxFreq =>
    if pos + 1 > data.length then
      (false, entries, maxFreq, ErrorCode.DICT_CORRUPT)
    else
      let wordLen := data.getD pos 0
      let pos1 := pos + 1
      if wordLen > MAX_WORD_LENGTH then
        (false, entries, maxFreq, ErrorCode.DICT_CORRUPT)
      else if pos1 + wordLen + 4 + 1 > data.length then
        (false, entries, maxFreq, ErrorCode.DICT_CORRUPT)
      else
        let word := (data.drop pos1).take wordLen
        let pos2 := pos1 + wordLen
        let freq := readU32LE data pos2
        let pos3 := pos2 + 4
        let flags := data.getD pos3 0
        let pos4 := pos3 + 1
        let maxFreq1 := if freq > maxFreq then freq else maxFreq
        parseEntriesLoop data n pos4
          (entries ++ [{ word := word, frequency := freq, flags := flags }])
          maxFreq1

/-- Model of `DictionaryLoader::Impl::parseFromBuffer`: clears the store,
validates size/magic/version, then parses `entryCount` packed entries.
`loaded` becomes true only on full success; on failure it keeps its
incoming value (the public load functions call `unload` first, so it is
false there). -/
def parseFromBuffer (st : DictImpl) (data : List ℕ) : Bool × DictImpl :=
  let st0 : DictImpl :=
    { st with lastError := ErrorCode.NONE, entries := [], header := {},
              maxFrequency := 0 }
  if data.length < DICT_HEADER_SIZE then
    (false, { st0 with lastError := ErrorCode.DICT_CORRUPT })
  else
    let langLen := readU16LE data 12
    let hdr : DictionaryHeader :=
      { magic := readU32LE data 0, version := readU16LE data 4,
        flags := readU16LE data 6, entryCount := readU32LE data 8,
        languageTag :=
          if 0 < langLen ∧ 14 + langLen ≤ DICT_HEADER_SIZE then
            (data.drop 14).take langLen
          else [] }
    let st1 := { st0 with header := hdr }
    if hdr.magic ≠ DICT_MAGIC then
      (false, { st1 with lastError := ErrorCode.DICT_CORRUPT })
    else if hdr.version ≠ DICT_VERSION then
      (false, { st1 with lastError := ErrorCode.DICT_VERSION_MISMATCH })
    else
      match parseEntriesLoop data hdr.entryCount DICT_HEADER_SIZE [] 0 with
      | (true, entries, maxFreq, _) =>
        (true, { st1 with entries := entries, maxFrequency := maxFreq,
                          loaded := true })
      | (false, entries, maxFreq, err) =>
        (false, { st1 with entries := entries, maxFrequency := maxFreq,
                           lastError := err })

/-- Model of `DictionaryLoader::unload`. -/
def unload (_st : DictImpl) : DictImpl := {}

/-- Model of `DictionaryLoader::loadFromMemory`: `unload`, then parse. -/
def loadFromMemory (st : DictImpl) (data : List ℕ) : Bool × DictImpl :=
  parseFromBuffer (unload st) data

/-- Model of `DictionaryLoader::getEntryCount` — note: returns the size of
the entry vector without consulting `loaded`. -/
def getEntryCount (st : DictImpl) : ℕ := st.entries.length

/-- Model of `DictionaryLoader::getMaxFrequency` — also independent of
`loaded`. -/
def getMaxFrequency (st : DictImpl) : ℕ := st.maxFrequency

/-- Model of `DictionaryLoader::getAllEntries`: the entry vector if
loaded, the static empty vector otherwise. -/
def getAllEntries (st : DictImpl) : List DictionaryEntry :=
  if st.loaded then st.entries else []

/-- Model of `DictionaryLoader::getEntriesStartingWith`. -/
def getEntriesStartingWith (st : DictImpl) (startChar : ℕ) :
    List DictionaryEntry :=
  if st.loaded then
    st.entries.filter fun e =>
      ¬ e.word.isEmpty ∧ toLowerByte (e.word.headD 0) = toLowerByte startChar
  else []

/-- Model of `DictionaryLoader::getEntriesWithStartEnd`. -/
def getEntriesWithStartEnd (st : DictImpl) (startChar endChar : ℕ) :
    List DictionaryEntry :=
  if st.loaded then
    st.entries.filter fun e =>
      ¬ e.word.isEmpty ∧ toLowerByte (e.word.headD 0) = toLowerByte startChar ∧
        toLowerByte (e.word.getLastD 0) = toLowerByte endChar
  else []

/-- Model of `DictionaryLoader::lookup`: ASCII case-insensitive exact
match, first hit. -/
def lookup (st : DictImpl) (word : List ℕ) : Option DictionaryEntry :=
  if ¬ st.loaded ∨ word.isEmpty then none
  else st.entries.find? fun e => e.word.map toLowerByte = word.map toLowerByte

/-- Dictionary invariant used by the engine: the recorded maximum
frequency dominates every entry (claim C6 relies on it). -/
def DictInv (st : DictImpl) : Prop :=
  ∀ e ∈ st.entries, e.frequency ≤ st.maxFrequency

instance (st : DictImpl) : Decidable (DictInv st) := by
  unfold DictInv; infer_instance

/-! Path processor (`PathProcessor.cpp`). -/

/-- State of `PathProcessor::Impl` (its two tunable fields, initialised to
the library constants). -/
structure PPState where
  minPointDistance : ℚ := MIN_POINT_DISTANCE_DP
  resampleCount : ℕ := RESAMPLE_COUNT
deriving DecidableEq, Repr, Inhabited

/-- Model of `PathProcessor::setMinPointDistance`. -/
def setMinPointDistance (pp : PPState) (d : ℚ) : PPState :=
  { pp with minPointDistance := d }

/-- Model of `PathProcessor::setResampleCount` (ignores counts below 2). -/
def setResampleCount (pp : PPState) (c : ℤ) : PPState :=
  if 2 ≤ c then { pp with resampleCount := c.toNat } else pp

/-- Filter loop of `PathProcessor::Impl::deduplicate` over the interior
points: keep a point iff its distance to the last kept point is at least
the threshold. -/
def dedupLoop (sqrtQ : ℚ → ℚ) (thr : ℚ) :
    GesturePoint → List GesturePoint → List GesturePoint
  | _, [] => []
  | last, cur :: rest =>
    let dx := cur.x - last.x
    let dy := cur.y - last.y
    if sqrtQ (dx * dx + dy * dy) ≥ thr then
      cur :: dedupLoop sqrtQ thr cur rest
    else dedupLoop sqrtQ thr last rest

/-- Model of `PathProcessor::Impl::deduplicate`: paths of at most two
points pass through unchanged; otherwise the first point, the surviving
interior points, and always the final point. -/
def deduplicate (sqrtQ : ℚ → ℚ) (thr : ℚ) (points : List GesturePoint) :
    List GesturePoint :=
  if points.length ≤ 2 then points
  else
    match points with
    | [] => []
    | p0 :: rest =>
      (p0 :: dedupLoop sqrtQ thr p0 rest.dropLast) ++ [points.getLastD {}]

/-- Model of `computeArcLength`: sum of consecutive segment lengths
(association of the sum is irrelevant in exact arithmetic). -/
def arcLength (sqrtQ : ℚ → ℚ) : List GesturePoint → ℚ
  | a :: b :: rest =>
    sqrtQ ((b.x - a.x) * (b.x - a.x) + (b.y - a.y) * (b.y - a.y)) +
      arcLength sqrtQ (b :: rest)
  | _ => 0

/-- Main loop of the `$1`-recognizer resampler (`resample`, lines 82–105):
walks segments accumulating distance `D`; when a segment would cross the
interval boundary a point is interpolated (position and timestamp),
emitted, and re-inserted into the working list.  The loop is given fuel;
every C++ run is covered because each iteration either advances `i`
toward the end of the working list or grows `result` (bounded by
`count`), so `pts.length + count + 1` iterations always suffice.
Returns the emitted points together with the final working list (whose
last element feeds the fill-up step). -/
def resampleLoop (sqrtQ : ℚ → ℚ) (interval : ℚ) (count : ℕ) :
    ℕ → List GesturePoint → ℕ → ℚ → List GesturePoint →
    List GesturePoint × List GesturePoint
  | 0, pts, _, _, result => (result, pts)
  | fuel + 1, pts, i, D, result =>
    if i < pts.length ∧ result.length < count - 1 then
      let prev := pts.getD (i - 1) {}
      let cur := pts.getD i {}
      let dx := cur.x - prev.x
      let dy := cur.y - prev.y
      let d := sqrtQ (dx * dx + dy * dy)
      if D + d ≥ interval then
        let t := (interval - D) / d
        let newPt : GesturePoint :=
          { x := prev.x + t * dx, y := prev.y + t * dy,
            timestamp := prev.timestamp +
              truncQ (t * ((cur.timestamp - prev.timestamp : ℤ) : ℚ)) }
        resampleLoop sqrtQ interval count fuel (pts.insertIdx i newPt)
          (i + 1) 0 (result ++ [newPt])
      else
        resampleLoop sqrtQ interval count fuel pts (i + 1) (D + d) result
    else (result, pts)

/-- Model of `PathProcessor::Impl::resample`: degenerate paths duplicate
the first point; otherwise run the interpolation loop, fill up with the
last working point, and truncate to exactly `count`. -/
def resample (sqrtQ : ℚ → ℚ) (count : ℕ) (points : List GesturePoint) :
    List GesturePoint :=
  if points.length < 2 then points
  else
    let totalLen := arcLength sqrtQ points
    if totalLen < 1 / 1000000 then List.replicate count (points.headD {})
    else
      let interval := totalLen / (((count : ℤ) - 1 : ℤ) : ℚ)
      let lr := resampleLoop sqrtQ interval count (points.length + count + 1)
        points 1 0 [points.headD {}]
      (lr.1 ++ List.replicate (count - lr.1.length) (lr.2.getLastD {})).take count

/-- Model of `normalizeBoundingBox`: bounding-box statistics, the
degenerate near-point branch, and the uniform-scale mapping with linear
timestamp normalization. -/
def normalizeBoundingBox (points : List GesturePoint) (totalArcLen : ℚ) :
    GesturePath :=
  match points with
  | [] => {}
  | p0 :: _ =>
    let minX := points.foldl (fun m p => min m p.x) p0.x
    let maxX := points.foldl (fun m p => max m p.x) p0.x
    let minY := points.foldl (fun m p => min m p.y) p0.y
    let maxY := points.foldl (fun m p => max m p.y) p0.y
    let width := maxX - minX
    let height := maxY - minY
    if width < 1 / 1000 ∧ height < 1 / 1000 then
      { points := List.replicate points.length
          { x := 1 / 2, y := 1 / 2, t := 1 / 2 },
        aspectRatio := 1, totalArcLength := totalArcLen }
    else
      let scale := max width height
      let ar := if height > 1 / 1000 then width / height else 1
      let firstTs := p0.timestamp
      let lastTs := (points.getLastD {}).timestamp
      let tsRange : ℚ := ((lastTs - firstTs : ℤ) : ℚ)
      { points := points.map fun p =>
          { x := (p.x - minX) / scale, y := (p.y - minY) / scale,
            t := if tsRange > 0 then
                ((p.timestamp - firstTs : ℤ) : ℚ) / tsRange
              else 1 / 2 },
        aspectRatio := ar, totalArcLength := totalArcLen }

/-- Model of `PathProcessor::normalize`: deduplicate, resample, normalize,
then take start/end keys from the raw (not resampled) endpoints. -/
def ppNormalize (sqrtQ : ℚ → ℚ) (pp : PPState) (raw : RawGesturePath)
    (layout : KeyboardLayout) : GesturePath :=
  if raw.isEmpty then {}
  else
    let deduped := deduplicate sqrtQ pp.minPointDistance raw.points
    if deduped.length < 2 then {}
    else
      let arcLen := arcLength sqrtQ deduped
      let resampled := resample sqrtQ pp.resampleCount deduped
      let path := normalizeBoundingBox resampled arcLen
      let first := raw.points.headD {}
      let last := raw.points.getLastD {}
      { path with
        startKeyIndex := layout.findNearestKey sqrtQ first.x first.y,
        endKeyIndex := layout.findNearestKey sqrtQ last.x last.y }

/-! Ideal path generator (`IdealPathGenerator.cpp`).  Its private
`resamplePoints`/`normalizeBB` duplicate the `$1` resampler and
bounding-box normalization of `PathProcessor` verbatim (only the
entry guard differs), so the loop definitions above are reused. -/

/-- State of `IdealPathGenerator::Impl`; the `unordered_map` cache is an
association list (inserted only on miss, so keys stay distinct). -/
structure IPGState where
  layout : KeyboardLayout := {}
  layoutSet : Bool := false
  cache : List (List ℕ × GesturePath) := []
deriving DecidableEq, Repr, Inhabited

/-- Model of `IdealPathGenerator`'s private `resamplePoints`: identical to
`PathProcessor`'s resampler except the extra `count < 2` guard. -/
def resamplePoints (sqrtQ : ℚ → ℚ) (points : List GesturePoint) (count : ℕ) :
    List GesturePoint :=
  if points.length < 2 ∨ count < 2 then points
  else
    let totalLen := arcLength sqrtQ points
    if totalLen < 1 / 1000000 then List.replicate count (points.headD {})
    else
      let interval := totalLen / (((count : ℤ) - 1 : ℤ) : ℚ)
      let lr := resampleLoop sqrtQ interval count (points.length + count + 1)
        points 1 0 [points.headD {}]
      (lr.1 ++ List.replicate (count - lr.1.length) (lr.2.getLastD {})).take count

/-- Key-center collection loop of `IdealPathGenerator::Impl::generate`
(lines 125–142): look up each lowercased character, skip unmapped
characters and consecutive duplicate keys, and emit key centers with
synthetic timestamps `100·charIdx` (the counter advances only when a
point is emitted). -/
def genLoop (layout : KeyboardLayout) :
    List ℕ → ℤ → ℤ → List GesturePoint
  | [], _, _ => []
  | ch :: rest, prevKeyIdx, charIdx =>
    let cp : ℤ := (toLowerByte ch : ℤ)
    let keyIdx := layout.findKeyByCodePoint cp
    if keyIdx < 0 then genLoop layout rest prevKeyIdx charIdx
    else if keyIdx = prevKeyIdx then genLoop layout rest prevKeyIdx charIdx
    else
      let key := layout.keys.getD keyIdx.toNat {}
      { x := key.centerX, y := key.centerY, timestamp := charIdx * 100 } ::
        genLoop layout rest keyIdx (charIdx + 1)

/-- Model of `IdealPathGenerator::Impl::generate`: fewer than two distinct
key centers yield the default (invalid) path; otherwise resample the
center polyline to 64 points, normalize, and set the start/end key
indices from the first/last mappable character. -/
def generate (sqrtQ : ℚ → ℚ) (st : IPGState) (word : List ℕ) : GesturePath :=
  if ¬ st.layoutSet then {}
  else
    let keyPoints := genLoop st.layout word (-1) 0
    if keyPoints.length < 2 then {}
    else
      let arcLen := arcLength sqrtQ keyPoints
      let resampled := resamplePoints sqrtQ keyPoints RESAMPLE_COUNT
      let path := normalizeBoundingBox resampled arcLen
      let mappable := word.filter fun ch =>
        0 ≤ st.layout.findKeyByCodePoint (toLowerByte ch : ℤ)
      let cp0 : ℤ := match mappable.head? with
        | some ch => (toLowerByte ch : ℤ)
        | none => -1
      let cpN : ℤ := match mappable.getLast? with
        | some ch => (toLowerByte ch : ℤ)
        | none => -1
      { path with
        startKeyIndex :=
          if 0 ≤ cp0 then st.layout.findKeyByCodePoint cp0 else -1,
        endKeyIndex :=
          if 0 ≤ cpN then st.layout.findKeyByCodePoint cpN else -1 }

/-- Model of `IdealPathGenerator::setLayout`: replaces the layout and
clears the cache wholesale. -/
def setLayout (st : IPGState) (layout : KeyboardLayout) : IPGState :=
  { st with layout := layout, layoutSet := true, cache := [] }

/-- Model of `IdealPathGenerator::clearCache`. -/
def clearCache (st : IPGState) : IPGState := { st with cache := [] }

/-- Model of `IdealPathGenerator::cacheSize`. -/
def cacheSize (st : IPGState) : ℕ := st.cache.length

/-- Model of `IdealPathGenerator::getIdealPath`: lowercase the word, hit
the cache, or generate and insert (the generated path is cached whether
or not it is valid). -/
def getIdealPath (sqrtQ : ℚ → ℚ) (st : IPGState) (word : List ℕ) :
    GesturePath × IPGState :=
  if ¬ st.layoutSet then ({}, st)
  else
    let key := word.map toLowerByte
    match st.cache.find? fun kv => kv.1 = key with
    | some kv => (kv.2, st)
    | none =>
      let path := generate sqrtQ st key
      (path, { st with cache := st.cache ++ [(key, path)] })

/-! Scorer (`Scorer.cpp`): banded DTW with two rolling rows. -/

/-- Model of `Scorer::Impl::pointDistance`: 2-D Euclidean distance of two
normalized points (time is not used). -/
def pointDistance (sqrtQ : ℚ → ℚ) (a b : NormalizedPoint) : ℚ :=
  sqrtQ ((a.x - b.x) * (a.x - b.x) + (a.y - b.y) * (a.y - b.y))

/-- Sakoe–Chiba band width as computed in `Scorer::computeDTWDistance`
(lines 53–54): `W = ceil(dtwBandwidthRatio * 64)`, floored at 1. -/
def dtwBandWidth (cfg : ScoringConfig) : ℕ :=
  let W : ℤ := Int.ceil (cfg.dtwBandwidthRatio * (RESAMPLE_COUNT : ℚ))
  (if W < 1 then 1 else W).toNat

/-- Pairwise cost between point `i` of the gesture and point `j` of the
ideal path (both inputs are checked to have 64 points before any access). -/
def dtwCost (sqrtQ : ℚ → ℚ) (A B : List NormalizedPoint) (i j : ℕ) : ℚ :=
  pointDistance sqrtQ (A.getD i {}) (B.getD j {})

/-- First DTW row (lines 61–67): `D[0,0]` is the corner cost and cells
`1 ≤ j ≤ min(W, 63)` accumulate cumulative right-moves; all other cells
hold the `FLT_MAX` sentinel. -/
def dtwRow0 (sqrtQ : ℚ → ℚ) (A B : List NormalizedPoint) (W : ℕ) :
    ℕ → ℚ
  | 0 => dtwCost sqrtQ A B 0 0
  | j + 1 =>
    if j + 1 ≤ min W (RESAMPLE_COUNT - 1) then
      let prev := dtwRow0 sqrtQ A B W j
      if prev < fltMax then prev + dtwCost sqrtQ A B 0 (j + 1) else fltMax
    else fltMax

/-- The guarded three-way minimum of lines 79–85 (probed in source
order: `dtw_prev[j]`, `dtw_curr[j-1]`, `dtw_prev[j-1]`); values at or
above the sentinel are skipped, and `FLT_MAX` is returned when none is
finite. -/
def dtwBest3 (up left diag : ℚ) : ℚ :=
  let b1 := if up < fltMax then up else fltMax
  let b2 := if left < fltMax then min b1 left else b1
  if diag < fltMax then min b2 diag else b2

/-- One row of the banded recurrence (lines 70–91).  Cells outside
`[i−W, min(63, i+W)]` are the sentinel (the row is re-filled with
`FLT_MAX` before use); in-band cells add the cost to the best of the
three finite neighbors (at column 0 only `dtw_prev[0]` exists).
Natural subtraction gives `i - W = max(0, i-W) = jMin`. -/
def dtwRowStep (sqrtQ : ℚ → ℚ) (A B : List NormalizedPoint) (W : ℕ)
    (prev : ℕ → ℚ) (i : ℕ) : ℕ → ℚ
  | 0 =>
    if i - W ≤ 0 then
      if prev 0 < fltMax then dtwCost sqrtQ A B i 0 + prev 0 else fltMax
    else fltMax
  | j + 1 =>
    if i - W ≤ j + 1 ∧ j + 1 ≤ min (RESAMPLE_COUNT - 1) (i + W) then
      let best := dtwBest3 (prev (j + 1)) (dtwRowStep sqrtQ A B W prev i j)
        (prev j)
      if best < fltMax then dtwCost sqrtQ A B i (j + 1) + best else fltMax
    else fltMax

/-- The rolling-row iteration (lines 70–91): row `0` is `dtwRow0` and each
later row is produced from its predecessor by `dtwRowStep`. -/
def dtwRows (sqrtQ : ℚ → ℚ) (A B : List NormalizedPoint) (W : ℕ) :
    ℕ → ℕ → ℚ
  | 0 => dtwRow0 sqrtQ A B W
  | i + 1 => dtwRowStep sqrtQ A B W (dtwRows sqrtQ A B W i) (i + 1)

/-- Model of `Scorer::computeDTWDistance`: `FLT_MAX` unless both paths
have exactly 64 points; otherwise the banded accumulated cost at
`(63, 63)`, divided by 64 when finite. -/
def computeDTWDistance (sqrtQ : ℚ → ℚ) (cfg : ScoringConfig)
    (gesture idealPath : GesturePath) : ℚ :=
  if gesture.points.length ≠ RESAMPLE_COUNT ∨
      idealPath.points.length ≠ RESAMPLE_COUNT then fltMax
  else
    let W := dtwBandWidth cfg
    let raw := dtwRows sqrtQ gesture.points idealPath.points W
      (RESAMPLE_COUNT - 1) (RESAMPLE_COUNT - 1)
    if raw ≥ fltMax then fltMax else raw / (RESAMPLE_COUNT : ℚ)

/-- Model of `Scorer::computeConfidence` (not called by `recognize`, which
inlines the same computation with an adaptive weight). -/
def computeConfidence (cfg : ScoringConfig) (dtwDistance maxDTWDistance : ℚ)
    (frequency maxFrequency : ℕ) : ℚ :=
  let normalizedDTW :=
    if maxDTWDistance > 0 ∧ dtwDistance < fltMax then
      min 1 (dtwDistance / maxDTWDistance)
    else 1
  let normalizedFreq :=
    if maxFrequency > 0 then
      min 1 ((frequency : ℚ) / (maxFrequency : ℚ))
    else 0
  let alpha := cfg.frequencyWeight
  let finalScore := (1 - alpha) * normalizedDTW + alpha * (1 - normalizedFreq)
  1 - max 0 (min 1 finalScore)

/-! Engine orchestration (`GestureEngine.cpp`). -/

/-- State of `GestureEngine::Impl` (the error callback is omitted: it only
forwards `lastError`). -/
structure EngineState where
  pathProcessor : PPState := {}
  idealPathGen : IPGState := {}
  scorerCfg : ScoringConfig := {}
  dictLoader : DictImpl := {}
  layout : KeyboardLayout := {}
  config : ScoringConfig := {}
  lastError : ErrorCode := ErrorCode.NONE
  initialized : Bool := false
deriving DecidableEq, Repr, Inhabited

/-- Model of `GestureEngine::configure` (lines 326–331): stores the config
and forwards it to the scorer — and to nothing else. -/
def configure (st : EngineState) (cfg : ScoringConfig) : EngineState :=
  { st with config := cfg, scorerCfg := cfg }

/-- Transition-counting loop of `estimateWordLengthByKeyTransitions`
(lines 52–60): snap each raw point to its nearest key; a change of
nearest key (among valid keys) counts one transition and becomes the new
previous key. -/
def keyTransLoop (sqrtQ : ℚ → ℚ) (layout : KeyboardLayout) :
    List GesturePoint → ℤ → ℕ
  | [], _ => 0
  | pt :: rest, prevKey =>
    let key := layout.findNearestKey sqrtQ pt.x pt.y
    if 0 ≤ key ∧ key ≠ prevKey then 1 + keyTransLoop sqrtQ layout rest key
    else keyTransLoop sqrtQ layout rest prevKey

/-- Model of `GestureEngine::Impl::estimateWordLengthByKeyTransitions`. -/
def estimateWordLengthByKeyTransitions (sqrtQ : ℚ → ℚ)
    (layout : KeyboardLayout) (rawPath : RawGesturePath) : ℚ :=
  if rawPath.points.length < 2 then 1
  else max 1 ((keyTransLoop sqrtQ layout rawPath.points (-1) : ℕ) : ℚ)

/-- A scored entry (`recognize` step 4's local `ScoredEntry`). -/
structure ScoredEntry where
  entry : DictionaryEntry
  dtwDistance : ℚ
deriving DecidableEq, Repr, Inhabited

/-- Scoring loop of `recognize` (lines 214–220): obtain or generate each
entry's ideal path (mutating the generator cache), skip invalid ideal
paths, and record the DTW distance computed with the scorer's config. -/
def scoreEntries (sqrtQ : ℚ → ℚ) (scorerCfg : ScoringConfig)
    (normalizedPath : GesturePath) :
    List DictionaryEntry → IPGState → List ScoredEntry × IPGState
  | [], ipg => ([], ipg)
  | entry :: rest, ipg =>
    let pi := getIdealPath sqrtQ ipg entry.word
    if ¬ pi.1.isValid then
      scoreEntries sqrtQ scorerCfg normalizedPath rest pi.2
    else
      let dtw := computeDTWDistance sqrtQ scorerCfg normalizedPath pi.1
      let si := scoreEntries sqrtQ scorerCfg normalizedPath rest pi.2
      ({ entry := entry, dtwDistance := dtw } :: si.1, si.2)

/-- Model of the `rawMaxDTW` accumulation (lines 230–237): the largest
DTW distance below `FLT_MAX`, starting from `0.0f`. -/
def computeRawMaxDTW (scored : List ScoredEntry) : ℚ :=
  scored.foldl
    (fun acc s =>
      if s.dtwDistance < fltMax ∧ s.dtwDistance > acc then s.dtwDistance
      else acc) 0

/-- Model of the `minCandDTW` accumulation (lines 230–237), starting from
`FLT_MAX`. -/
def computeMinCandDTW (scored : List ScoredEntry) : ℚ :=
  scored.foldl
    (fun acc s =>
      if s.dtwDistance < fltMax ∧ s.dtwDistance < acc then s.dtwDistance
      else acc) fltMax

/-- Model of the `maxDTW` selection (lines 238–243): the configured floor
for at most one scored candidate, a `0.01` safety floor otherwise. -/
def computeMaxDTW (cfg : ScoringConfig) (scored : List ScoredEntry) : ℚ :=
  if scored.length ≤ 1 then max (computeRawMaxDTW scored) cfg.maxDTWFloor
  else max (computeRawMaxDTW scored) (1 / 100)

/-- Model of the adaptive frequency weight (lines 249–253). -/
def effectiveAlpha (cfg : ScoringConfig) (scored : List ScoredEntry) : ℚ :=
  let rawRange :=
    if computeMinCandDTW scored < fltMax then
      computeRawMaxDTW scored - computeMinCandDTW scored
    else 0
  if 1 < scored.length ∧ rawRange < 1 / 2 then
    cfg.frequencyWeight * max (1 / 10) (rawRange / (1 / 2))
  else cfg.frequencyWeight

/-- Candidate construction of `recognize` step 6 (lines 263–288),
including the unclamped `frequencyScore`. -/
def buildCandidate (alpha maxDTW : ℚ) (maxFreq : ℕ) (s : ScoredEntry) :
    GestureCandidate :=
  let normalizedDTW :=
    if maxDTW > 0 ∧ s.dtwDistance < fltMax then min 1 (s.dtwDistance / maxDTW)
    else 1
  let normalizedFreq :=
    if maxFreq > 0 then min 1 ((s.entry.frequency : ℚ) / (maxFreq : ℚ))
    else 0
  let finalScore := (1 - alpha) * normalizedDTW + alpha * (1 - normalizedFreq)
  { word := s.entry.word,
    confidence := 1 - max 0 (min 1 finalScore),
    sourceFlags := SOURCE_MAIN_DICT,
    dtwScore := s.dtwDistance,
    frequencyScore :=
      if maxFreq > 0 then (s.entry.frequency : ℚ) / (maxFreq : ℚ) else 0 }

/-- Comparison used for the final ordering: confidence descending. -/
def candGE (a b : GestureCandidate) : Prop := b.confidence ≤ a.confidence

instance : DecidableRel candGE := fun a b =>
  inferInstanceAs (Decidable (b.confidence ≤ a.confidence))

instance : IsTotal GestureCandidate candGE :=
  ⟨fun a b => le_total b.confidence a.confidence⟩

instance : IsTrans GestureCandidate candGE :=
  ⟨fun _ _ _ h h2 => le_trans h2 h⟩

/-- The final sort of `recognize` step 7 (lines 290–294).  The source
calls `std::sort` with the strict comparator `a.confidence >
b.confidence`; the C++ standard promises only a permutation that is
sorted for that comparator (stability is not guaranteed).  It is modelled
here by an insertion sort, one such permutation; no theorem below relies
on the tie order this particular choice produces. -/
def sortCandidates (l : List GestureCandidate) : List GestureCandidate :=
  l.insertionSort candGE

/-- Step 2 of `recognize` (lines 143–162): the lowercased start/end key
characters, `0` standing for the C++ NUL sentinel ("unknown"). -/
def startEndChars (layout : KeyboardLayout) (np : GesturePath) : ℤ × ℤ :=
  let keysLen : ℤ := layout.keys.length
  if 0 ≤ np.startKeyIndex ∧ np.startKeyIndex < keysLen ∧
      0 ≤ np.endKeyIndex ∧ np.endKeyIndex < keysLen then
    let cpS := (layout.keys.getD np.startKeyIndex.toNat {}).codePoint
    let cpE := (layout.keys.getD np.endKeyIndex.toNat {}).codePoint
    (if 97 ≤ cpS ∧ cpS ≤ 122 then cpS
     else if 65 ≤ cpS ∧ cpS ≤ 90 then cpS + 32
     else 0,
     if 97 ≤ cpE ∧ cpE ≤ 122 then cpE
     else if 65 ≤ cpE ∧ cpE ≤ 90 then cpE + 32
     else 0)
  else (0, 0)

/-- Step 3 of `recognize` (lines 168–182): start/end filter, then
start-only, then all entries as the last resort. -/
def candidateEntries (dict : DictImpl) (startChar endChar : ℤ) :
    List DictionaryEntry :=
  let dictEntries0 :=
    if startChar ≠ 0 ∧ endChar ≠ 0 then
      getEntriesWithStartEnd dict startChar.toNat endChar.toNat
    else []
  let dictEntries1 :=
    if dictEntries0.isEmpty ∧ startChar ≠ 0 then
      getEntriesStartingWith dict startChar.toNat
    else dictEntries0
  if dictEntries1.isEmpty then getAllEntries dict else dictEntries1

/-- Length pre-filter of `recognize` (lines 184–204), with the
fall-back-to-unfiltered behavior. -/
def lengthFiltered (tol estimatedLen : ℚ) (entries : List DictionaryEntry) :
    List DictionaryEntry :=
  let filtered := entries.filter fun e =>
    |((e.word.length : ℚ)) - estimatedLen| ≤ tol
  if filtered.isEmpty then entries else filtered

/-- Model of `GestureEngine::recognize` (lines 123–301), returning the
candidate list together with the updated engine state (generator cache
and `lastError`). -/
def recognize (sqrtQ : ℚ → ℚ) (st : EngineState) (rawPath : RawGesturePath)
    (maxCandidates : ℤ) : List GestureCandidate × EngineState :=
  if ¬ st.initialized then
    ([], { st with lastError := ErrorCode.ENGINE_NOT_INITIALIZED })
  else
    let mc : ℤ := max 1 (min maxCandidates MAX_MAX_CANDIDATES)
    if rawPath.isEmpty then
      ([], { st with lastError := ErrorCode.PATH_TOO_SHORT })
    else
      let normalizedPath := ppNormalize sqrtQ st.pathProcessor rawPath st.layout
      if ¬ normalizedPath.isValid then ([], st)
      else
        let se := startEndChars st.layout normalizedPath
        let dictEntries := candidateEntries st.dictLoader se.1 se.2
        let filtered := lengthFiltered st.config.lengthFilterTolerance
          (estimateWordLengthByKeyTransitions sqrtQ st.layout rawPath)
          dictEntries
        let si := scoreEntries sqrtQ st.scorerCfg normalizedPath filtered
          st.idealPathGen
        let scored := si.1
        let st1 := { st with idealPathGen := si.2 }
        if scored.isEmpty then ([], st1)
        else
          let maxDTW := computeMaxDTW st.config scored
          let alpha := effectiveAlpha st.config scored
          let maxFreq := getMaxFrequency st.dictLoader
          let results := scored.map (buildCandidate alpha maxDTW maxFreq)
          (sortCandidates results |>.take mc.toNat, st1)

/-! The clean synthesized path of the repository's test helpers
(`tests/TestHelpers.h`, `makePathForWord`): straight-line segments
between the key centers of a word, `pointsPerSegment` samples per
segment plus the final center, timestamps at 10 ms intervals. -/

/-- Center coordinates of the key at a given index. -/
def keyCenter (layout : KeyboardLayout) (idx : ℤ) : ℚ × ℚ :=
  ((layout.keys.getD idx.toNat {}).centerX,
   (layout.keys.getD idx.toNat {}).centerY)

/-- Key centers visited by a word, in order (unmapped characters are
skipped; consecutive duplicates are kept, as in the helper). -/
def wordCenters (layout : KeyboardLayout) (word : List ℕ) : List (ℚ × ℚ) :=
  word.filterMap fun c =>
    let idx := layout.findKeyByCodePoint (c : ℤ)
    if 0 ≤ idx then some (keyCenter layout idx) else none

/-- One segment of the helper's inner loop: `pointsPerSegment` samples at
parameters `j/pointsPerSegment` along the straight segment (so sample 0
is the segment's start center), timestamps continuing at 10 ms steps
from `ts0`. -/
def segPoints (c0 c1 : ℚ × ℚ) (pointsPerSegment : ℕ) (ts0 : ℤ) :
    List GesturePoint :=
  (List.range pointsPerSegment).map fun (j : ℕ) =>
    let t : ℚ := (j : ℚ) / (pointsPerSegment : ℚ)
    { x := c0.1 + (c1.1 - c0.1) * t, y := c0.2 + (c1.2 - c0.2) * t,
      timestamp := ts0 + 10 * (j : ℤ) }

/-- The helper's outer loop over consecutive center pairs, threading the
running timestamp; returns the sample list and the timestamp for the
final appended point. -/
def segsLoop (pointsPerSegment : ℕ) :
    List (ℚ × ℚ) → ℤ → List GesturePoint × ℤ
  | c0 :: c1 :: rest, ts =>
    let block := segPoints c0 c1 pointsPerSegment ts
    let r := segsLoop pointsPerSegment (c1 :: rest) (ts + 10 * (pointsPerSegment : ℤ))
    (block ++ r.1, r.2)
  | _, ts => ([], ts)

/-- Model of `makePathForWord`: straight segments between consecutive key
centers, then the final center. -/
def makePathForWord (layout : KeyboardLayout) (word : List ℕ)
    (pointsPerSegment : ℕ) : List GesturePoint :=
  if word.isEmpty then []
  else
    let centers := wordCenters layout word
    if centers.isEmpty then []
    else
      let r := segsLoop pointsPerSegment centers 0
      r.1 ++ [{ x := (centers.getLastD (0, 0)).1,
                y := (centers.getLastD (0, 0)).2, timestamp := r.2 }]

/-- Key-index sequence of a word under a layout (claim C8's quantities):
indices of the mappable characters, duplicates kept. -/
def wordKeySeq (layout : KeyboardLayout) (word : List ℕ) : List ℤ :=
  word.filterMap fun c =>
    let idx := layout.findKeyByCodePoint (c : ℤ)
    if 0 ≤ idx then some idx else none

/-- Collapse consecutive duplicates; the claim's `k` is the length of the
collapsed key sequence ("distinct keys visited"). -/
def collapseConsecutive : List ℤ → List ℤ
  | [] => []
  | [a] => [a]
  | a :: b :: rest =>
    if a = b then collapseConsecutive (b :: rest)
    else a :: collapseConsecutive (b :: rest)

/-- Nearest key of a raw point, as the estimator computes it. -/
def nearestOf (sqrtQ : ℚ → ℚ) (layout : KeyboardLayout) (p : GesturePoint) : ℤ :=
  layout.findNearestKey sqrtQ p.x p.y

/-- The transition count of `keyTransLoop` expressed on the list of
nearest-key indices (valid keys differing from the previous key count;
invalid keys are skipped without becoming the previous key). -/
def countTransKeys : ℤ → List ℤ → ℕ
  | _, [] => 0
  | prev, k :: rest =>
    if 0 ≤ k ∧ k ≠ prev then 1 + countTransKeys k rest
    else countTransKeys prev rest

/-! Concrete inputs used by the counterexamples and witnesses below. -/

/-- A corrupt dictionary buffer: a valid 32-byte header announcing two
entries, one complete entry (word "a", frequency 5), then a truncated
second entry (its length byte only). -/
def corruptDictBuf : List ℕ :=
  [0x44, 0x49, 0x4C, 0x47, 1, 0, 0, 0, 2, 0, 0, 0, 0, 0] ++
    List.replicate 18 0 ++ [1, 0x61, 5, 0, 0, 0, 0] ++ [1]

/-- A minimal layout with three collinear character keys `a`, `b`, `c`
at x = 0, 10, 20. -/
def threeKeyLayout : KeyboardLayout :=
  { keys :=
      [{ label := [97], codePoint := 97, centerX := 0, centerY := 0,
         width := 10, height := 10 },
       { label := [98], codePoint := 98, centerX := 10, centerY := 0,
         width := 10, height := 10 },
       { label := [99], codePoint := 99, centerX := 20, centerY := 0,
         width := 10, height := 10 }],
    layoutWidth := 30, layoutHeight := 10 }

/-- Three collinear raw points 3 dp apart (interior point farther than
the default dedup threshold 2.0, nearer than 1000). -/
def threeRawPoints : List GesturePoint :=
  [{ x := 0, y := 0, timestamp := 0 }, { x := 0, y := 3, timestamp := 10 },
   { x := 0, y := 6, timestamp := 20 }]

/-- A configuration overriding the two path-processor parameters. -/
def c2Config : ScoringConfig :=
  { defaultConfig with minPointDistance := 1000, resampleCount := 32 }

/-! Claim C3: the Sakoe–Chiba band width under the default
configuration.  The scorer computes `W = ceil(0.10 * 64) = ceil(6.4) =
7`; the spec's value 6 is wrong (the unused header constant
`DTW_BANDWIDTH = 6` contradicts its own `ceil` formula as well). -/

/-- Helper: the ceiling the scorer computes under the default ratio. -/
theorem ceil_default_band : Int.ceil ( DTW_BANDWIDTH_RATIO * ((RESAMPLE_COUNT : ℕ) : ℚ)) = 7 := by
  rw [show DTW_BANDWIDTH_RATIO * ((RESAMPLE_COUNT : ℕ) : ℚ) = 32 / 5 by
    norm_num [ DTW_BANDWIDTH_RATIO, RESAMPLE_COUNT]]
  rw [Int.ceil_eq_iff]
  all_goals norm_num

/-- Helper: the value of `dtwBandWidth` at the default configuration. -/
theorem dtwBandWidth_default : dtwBandWidth defaultConfig = 7 := by
  have h : (defaultConfig : ScoringConfig).dtwBandwidthRatio = DTW_BANDWIDTH_RATIO := rfl
  simp only [dtwBandWidth, h, ceil_default_band]
  decide

/-- Claim C3, counterexample: the band width the DTW scorer actually uses
under the default configuration is not 6. -/
theorem claim_C3_counterexample : dtwBandWidth defaultConfig ≠ 6 := by
  rw [dtwBandWidth_default]; norm_num

/-- Claim C3 (amended): the band width used by the DTW scorer under the
default configuration (ratio 0.10, 64-point paths) equals
`ceil(64 * DTW_BANDWIDTH_RATIO)`, which is 7, not 6 (`ceil(6.4) = 7`). -/
theorem claim_C3_amended :
    dtwBandWidth defaultConfig = 7 ∧
      Int.ceil (((RESAMPLE_COUNT : ℕ) : ℚ) * DTW_BANDWIDTH_RATIO) = 7 := by
  refine ⟨dtwBandWidth_default, ?_⟩
  rw [mul_comm]; exact ceil_default_band

/-! Claim C2: which configuration fields take effect after
`configure(c)`.  `GestureEngine::configure` stores the config in the
engine and scorer but never calls `PathProcessor::setMinPointDistance` /
`setResampleCount`, and `maxCandidatesEvaluated` is read nowhere. -/

/-- Claim C2, counterexample: after `configure` with
`min_point_distance = 1000` and `resample_count = 32`, the engine's path
processor still holds the defaults 2.0 / 64, and the deduplication the
next `recognize` performs (with the processor's threshold) differs
observably from deduplication with the configured threshold: on three
collinear points 3 dp apart the former keeps the interior point, the
latter drops it. -/
theorem claim_C2_counterexample :
    (configure {} c2Config).pathProcessor.minPointDistance = 2 ∧
      (configure {} c2Config).pathProcessor.minPointDistance ≠
        c2Config.minPointDistance ∧
      (configure {} c2Config).pathProcessor.resampleCount = 64 ∧
      (configure {} c2Config).pathProcessor.resampleCount ≠
        c2Config.resampleCount ∧
      deduplicate id (configure {} c2Config).pathProcessor.minPointDistance
          threeRawPoints ≠
        deduplicate id c2Config.minPointDistance threeRawPoints := by
  have h2 : (configure {} c2Config).pathProcessor.minPointDistance = 2 := rfl
  have h64 : (configure {} c2Config).pathProcessor.resampleCount = 64 := rfl
  have hthr : c2Config.minPointDistance = 1000 := rfl
  have hKeep : deduplicate id (2 : ℚ) threeRawPoints = threeRawPoints := by
    norm_num [deduplicate, dedupLoop, threeRawPoints, List.dropLast]
  have hDrop : deduplicate id (1000 : ℚ) threeRawPoints =
      [{ x := 0, y := 0, timestamp := 0 }, { x := 0, y := 6, timestamp := 20 }] := by
    norm_num [deduplicate, dedupLoop, threeRawPoints, List.dropLast]
  refine ⟨h2, ?_, h64, ?_, ?_⟩
  · rw [h2, hthr]; norm_num
  · rw [h64]; decide
  · rw [h2, hthr, hKeep, hDrop]
    simp [threeRawPoints]

/-- Helper: the band width only depends on `dtwBandwidthRatio`. -/
theorem dtwBandWidth_congr {c1 c2 : ScoringConfig}
    (h : c1.dtwBandwidthRatio = c2.dtwBandwidthRatio) :
    dtwBandWidth c1 = dtwBandWidth c2 := by
  unfold dtwBandWidth; rw [h]

/-- Helper: the DTW distance only depends on `dtwBandwidthRatio`. -/
theorem computeDTWDistance_congr (sqrtQ : ℚ → ℚ) {c1 c2 : ScoringConfig}
    (h : c1.dtwBandwidthRatio = c2.dtwBandwidthRatio) (g ip : GesturePath) :
    computeDTWDistance sqrtQ c1 g ip = computeDTWDistance sqrtQ c2 g ip := by
  unfold computeDTWDistance; rw [dtwBandWidth_congr h]

/-- Helper: the scoring loop only depends on `dtwBandwidthRatio`. -/
theorem scoreEntries_congr (sqrtQ : ℚ → ℚ) {c1 c2 : ScoringConfig}
    (h : c1.dtwBandwidthRatio = c2.dtwBandwidthRatio) (np : GesturePath)
    (l : List DictionaryEntry) : ∀ ipg,
    scoreEntries sqrtQ c1 np l ipg = scoreEntries sqrtQ c2 np l ipg := by
  induction l with
  | nil => intro ipg; rfl
  | cons e rest ih =>
    intro ipg
    simp only [scoreEntries]
    rw [computeDTWDistance_congr sqrtQ h, ih]

/-- Helper: `computeMaxDTW` only depends on `maxDTWFloor`. -/
theorem computeMaxDTW_congr {c1 c2 : ScoringConfig}
    (h : c1.maxDTWFloor = c2.maxDTWFloor) (scored : List ScoredEntry) :
    computeMaxDTW c1 scored = computeMaxDTW c2 scored := by
  unfold computeMaxDTW; rw [h]

/-- Helper: the adaptive weight only depends on `frequencyWeight`. -/
theorem effectiveAlpha_congr {c1 c2 : ScoringConfig}
    (h : c1.frequencyWeight = c2.frequencyWeight) (scored : List ScoredEntry) :
    effectiveAlpha c1 scored = effectiveAlpha c2 scored := by
  unfold effectiveAlpha; rw [h]

/-- Helper: `recognize` depends on the configured parameters only through
the four fields that are actually read (`dtwBandwidthRatio` via the
scorer, `frequencyWeight`, `lengthFilterTolerance`, `maxDTWFloor` via the
engine). -/
theorem recognize_congr (sqrtQ : ℚ → ℚ) (st : EngineState)
    {c1 c2 : ScoringConfig}
    (hb : c1.dtwBandwidthRatio = c2.dtwBandwidthRatio)
    (hw : c1.frequencyWeight = c2.frequencyWeight)
    (ht : c1.lengthFilterTolerance = c2.lengthFilterTolerance)
    (hf : c1.maxDTWFloor = c2.maxDTWFloor)
    (raw : RawGesturePath) (mcand : ℤ) :
    (recognize sqrtQ (configure st c1) raw mcand).1 =
      (recognize sqrtQ (configure st c2) raw mcand).1 := by
  simp only [recognize, configure, scoreEntries_congr sqrtQ hb,
    computeMaxDTW_congr hf, effectiveAlpha_congr hw, ht,
    apply_ite (Prod.fst : List GestureCandidate × EngineState →
      List GestureCandidate)]

/-- Claim C2 (amended): `configure(c)` replaces the engine's and the
scorer's configuration (so `dtw_bandwidth_ratio`, `frequency_weight`,
`length_filter_tolerance` and `max_dtw_floor` take effect on the next
`recognize`), but it leaves the path processor untouched, and the
candidate list `recognize` returns is independent of
`c.max_candidates_evaluated`, `c.resample_count` and
`c.min_point_distance`. -/
theorem claim_C2_amended (st : EngineState) (c : ScoringConfig) :
    (configure st c).config = c ∧ (configure st c).scorerCfg = c ∧
      (configure st c).pathProcessor = st.pathProcessor ∧
      ∀ (sqrtQ : ℚ → ℚ) (raw : RawGesturePath) (mcand n : ℤ) (m : ℕ) (q : ℚ),
        (recognize sqrtQ
          (configure st { c with maxCandidatesEvaluated := n,
                                 resampleCount := m, minPointDistance := q })
          raw mcand).1 =
        (recognize sqrtQ (configure st c) raw mcand).1 := by
  exact ⟨rfl, rfl, rfl, fun sqrtQ raw mcand n m q =>
    @recognize_congr sqrtQ st
      { c with maxCandidatesEvaluated := n, resampleCount := m,
               minPointDistance := q } c rfl rfl rfl rfl raw mcand⟩

/-- Claim C2 (amended), witness: a concrete instantiation of the amended
theorem at the default state and a fully non-default configuration. -/
theorem claim_C2_amended_witness :
    (configure {} { defaultConfig with frequencyWeight := 1 }).scorerCfg =
      { defaultConfig with frequencyWeight := 1 } :=
  (claim_C2_amended {} { defaultConfig with frequencyWeight := 1 }).2.1

/-! Claim C10: words with fewer than two collapsed key centers get an
invalid (default/empty) ideal path, and that invalid path is cached all
the same. -/

/-- Helper: `generate` returns the default (invalid) path when the
collapsed key-center walk yields fewer than two points. -/
theorem generate_short (sqrtQ : ℚ → ℚ) (st : IPGState) (w : List ℕ)
    (hset : st.layoutSet = true)
    (hshort : (genLoop st.layout w (-1) 0).length < 2) :
    generate sqrtQ st w = ({} : GesturePath) := by
  unfold generate
  rw [hset]
  simp only [Bool.not_true, Bool.false_eq_true, if_false, if_pos hshort]
  simp

/-- Claim C10: for a word whose characters map to fewer than two points
(after dropping unmapped characters and collapsing consecutive duplicate
keys), `getIdealPath` returns the invalid empty path, inserts it into the
cache (`cache_size` grows by one), and a second call returns the cached
invalid path with the state unchanged. -/
theorem claim_C10 (sqrtQ : ℚ → ℚ) (st : IPGState) (word : List ℕ)
    (hset : st.layoutSet = true)
    (hshort : (genLoop st.layout (word.map toLowerByte) (-1) 0).length < 2)
    (hmiss : st.cache.find? (fun kv => kv.1 = word.map toLowerByte) = none) :
    (getIdealPath sqrtQ st word).1 = ({} : GesturePath) ∧
      (getIdealPath sqrtQ st word).1.isValid = false ∧
      cacheSize (getIdealPath sqrtQ st word).2 = cacheSize st + 1 ∧
      getIdealPath sqrtQ (getIdealPath sqrtQ st word).2 word =
        ((getIdealPath sqrtQ st word).1, (getIdealPath sqrtQ st word).2) := by
  have hidp : getIdealPath sqrtQ st word =
      (({} : GesturePath),
        { st with cache := st.cache ++ [(word.map toLowerByte, {})] }) := by
    unfold getIdealPath
    rw [hset]
    simp only [Bool.not_true, Bool.false_eq_true, if_false, hmiss,
      generate_short sqrtQ st (word.map toLowerByte) hset hshort]
    simp
  have hsecond : getIdealPath sqrtQ
      ({ st with cache := st.cache ++ [(word.map toLowerByte, {})] } : IPGState)
      word =
      (({} : GesturePath),
        ({ st with cache := st.cache ++ [(word.map toLowerByte, {})] } : IPGState)) := by
    unfold getIdealPath
    rw [hset]
    simp only [Bool.not_true, Bool.false_eq_true, if_false, List.find?_append,
      hmiss, Option.none_or, List.find?_cons, decide_eq_true_eq]
    simp
  rw [hidp]
  refine ⟨rfl, rfl, ?_, ?_⟩
  · simp [cacheSize]
  · exact hsecond

/-- Claim C10, witness: the word "aa" on the three-key layout collapses
to a single key center, so its ideal path is invalid yet cached. -/
theorem claim_C10_witness :
    ((genLoop (setLayout {} threeKeyLayout).layout
        ([97, 97].map toLowerByte) (-1) 0).length < 2) ∧
      ((getIdealPath id (setLayout {} threeKeyLayout) [97, 97]).1 =
          ({} : GesturePath) ∧
        (getIdealPath id (setLayout {} threeKeyLayout) [97, 97]).1.isValid = false ∧
        cacheSize (getIdealPath id (setLayout {} threeKeyLayout) [97, 97]).2 =
          cacheSize (setLayout {} threeKeyLayout) + 1 ∧
        getIdealPath id (getIdealPath id (setLayout {} threeKeyLayout) [97, 97]).2
            [97, 97] =
          ((getIdealPath id (setLayout {} threeKeyLayout) [97, 97]).1,
            (getIdealPath id (setLayout {} threeKeyLayout) [97, 97]).2)) :=
  ⟨by decide, claim_C10 id (setLayout {} threeKeyLayout) [97, 97] rfl
    (by decide) rfl⟩

/-! Claim C1: what a failed load leaves behind.  All four queries are
empty because they check `loaded`; but `getEntryCount`/`getMaxFrequency`
do not, and a failure in the middle of the entry loop keeps the entries
already pushed. -/

/-- Helper: `parseFromBuffer` either succeeds or leaves `loaded` as it
found it (the loop never touches `loaded`; only the success path sets
it). -/
theorem parseFromBuffer_loaded_cases (st : DictImpl) (data : List ℕ) :
    (parseFromBuffer st data).1 = true ∨
      (parseFromBuffer st data).2.loaded = st.loaded := by
  unfold parseFromBuffer
  dsimp only
  split
  · right; rfl
  · split
    · right; rfl
    · split
      · right; rfl
      · split
        · left; rfl
        · right; rfl

/-- Helper: a failed `loadFromMemory` leaves the store unloaded. -/
theorem loadFromMemory_false_not_loaded (st : DictImpl) (data : List ℕ)
    (h : (loadFromMemory st data).1 = false) :
    (loadFromMemory st data).2.loaded = false := by
  rcases parseFromBuffer_loaded_cases (unload st) data with hc | hc
  · exact absurd (h.symm.trans hc) (by simp)
  · exact hc

/-- Claim C1 (amended): when a load fails, every query
(`all_entries`, `entries_starting_with`, `entries_with_start_end`,
`lookup`) returns an empty result exactly as on an unloaded store; but
`entry_count()` and `max_frequency()` do not consult the `loaded` flag,
so only header-level corruption (buffer shorter than 32 bytes, bad
magic) guarantees they report 0 — after a truncated entry or over-long
word they report the entries parsed before the failure. -/
theorem claim_C1_amended (st : DictImpl) (data : List ℕ)
    (h : (loadFromMemory st data).1 = false) :
    (getAllEntries (loadFromMemory st data).2 = [] ∧
      (∀ c, getEntriesStartingWith (loadFromMemory st data).2 c = []) ∧
      (∀ c e, getEntriesWithStartEnd (loadFromMemory st data).2 c e = []) ∧
      (∀ w, lookup (loadFromMemory st data).2 w = none)) ∧
    ((data.length < DICT_HEADER_SIZE ∨ readU32LE data 0 ≠ DICT_MAGIC) →
      getEntryCount (loadFromMemory st data).2 = 0 ∧
      getMaxFrequency (loadFromMemory st data).2 = 0) := by
  have hl := loadFromMemory_false_not_loaded st data h
  constructor
  · refine ⟨?_, fun c => ?_, fun c e => ?_, fun w => ?_⟩
    · unfold getAllEntries; rw [hl]; rfl
    · unfold getEntriesStartingWith; rw [hl]; rfl
    · unfold getEntriesWithStartEnd; rw [hl]; rfl
    · unfold lookup; rw [hl]; simp
  · intro hhdr
    unfold getEntryCount getMaxFrequency
    unfold loadFromMemory parseFromBuffer
    rcases Nat.lt_or_ge data.length DICT_HEADER_SIZE with hlen | hlen
    · rw [if_pos hlen]; exact ⟨rfl, rfl⟩
    · have hmagic : readU32LE data 0 ≠ DICT_MAGIC := by
        rcases hhdr with hs | hs
        · exact absurd hs (Nat.not_lt.mpr hlen)
        · exact hs
      rw [if_neg (Nat.not_lt.mpr hlen)]
      dsimp only
      rw [if_pos (by simpa using hmagic)]
      exact ⟨rfl, rfl⟩

/-- Claim C1 (amended), witness: the empty buffer fails the load and
leaves counts at zero and all queries empty. -/
theorem claim_C1_amended_witness :
    (loadFromMemory {} ([] : List ℕ)).1 = false ∧
      ((getAllEntries (loadFromMemory {} ([] : List ℕ)).2 = [] ∧
        (∀ c, getEntriesStartingWith (loadFromMemory {} ([] : List ℕ)).2 c = []) ∧
        (∀ c e, getEntriesWithStartEnd (loadFromMemory {} ([] : List ℕ)).2 c e = []) ∧
        (∀ w, lookup (loadFromMemory {} ([] : List ℕ)).2 w = none)) ∧
      ((([] : List ℕ).length < DICT_HEADER_SIZE ∨
          readU32LE ([] : List ℕ) 0 ≠ DICT_MAGIC) →
        getEntryCount (loadFromMemory {} ([] : List ℕ)).2 = 0 ∧
        getMaxFrequency (loadFromMemory {} ([] : List ℕ)).2 = 0)) :=
  ⟨by decide, claim_C1_amended {} [] (by decide)⟩

/-- Claim C1, counterexample: a buffer with a valid header announcing two
entries, one complete entry ("a", frequency 5) and a truncated second
entry makes the load fail with `entry_count() = 1` and
`max_frequency() = 5`, not 0 — the store is not left entirely empty. -/
theorem claim_C1_counterexample :
    (loadFromMemory {} corruptDictBuf).1 = false ∧
      getEntryCount (loadFromMemory {} corruptDictBuf).2 = 1 ∧
      getMaxFrequency (loadFromMemory {} corruptDictBuf).2 = 5 := by decide

/-! Claim C7: the DTW normalization constant. -/

/-- Helper: the `rawMaxDTW` fold never decreases below its accumulator. -/
theorem rawMax_fold_ge : ∀ (l : List ScoredEntry) (acc : ℚ),
    acc ≤ l.foldl
      (fun acc s =>
        if s.dtwDistance < fltMax ∧ s.dtwDistance > acc then s.dtwDistance
        else acc) acc
  | [], _ => le_refl _
  | a :: l, acc => by
    simp only [List.foldl_cons]
    refine le_trans ?_ (rawMax_fold_ge l _)
    by_cases h : a.dtwDistance < fltMax ∧ a.dtwDistance > acc
    · rw [if_pos h]; exact le_of_lt h.2
    · rw [if_neg h]

/-- Helper: the `rawMaxDTW` fold dominates every finite distance in the
list. -/
theorem rawMax_fold_ub : ∀ (l : List ScoredEntry) (acc : ℚ) (s : ScoredEntry),
    s ∈ l → s.dtwDistance < fltMax →
    s.dtwDistance ≤ l.foldl
      (fun acc s =>
        if s.dtwDistance < fltMax ∧ s.dtwDistance > acc then s.dtwDistance
        else acc) acc
  | a :: l, acc, s, hmem, hfin => by
    simp only [List.foldl_cons]
    rcases List.mem_cons.mp hmem with rfl | hmem
    · refine le_trans ?_ (rawMax_fold_ge l _)
      by_cases h : s.dtwDistance < fltMax ∧ s.dtwDistance > acc
      · rw [if_pos h]
      · rw [if_neg h]
        rcases not_and_or.mp h with h1 | h1
        · exact absurd hfin h1
        · exact le_of_not_lt h1
    · exact rawMax_fold_ub l _ s hmem hfin

/-- Helper: the `rawMaxDTW` fold either keeps its accumulator or equals
some finite distance in the list. -/
theorem rawMax_fold_attained : ∀ (l : List ScoredEntry) (acc : ℚ),
    l.foldl
      (fun acc s =>
        if s.dtwDistance < fltMax ∧ s.dtwDistance > acc then s.dtwDistance
        else acc) acc = acc ∨
    ∃ s ∈ l, l.foldl
      (fun acc s =>
        if s.dtwDistance < fltMax ∧ s.dtwDistance > acc then s.dtwDistance
        else acc) acc = s.dtwDistance ∧ s.dtwDistance < fltMax
  | [], _ => Or.inl rfl
  | a :: l, acc => by
    have hrec := rawMax_fold_attained l
      (if a.dtwDistance < fltMax ∧ a.dtwDistance > acc then a.dtwDistance
       else acc)
    simp only [List.foldl_cons]
    by_cases h : a.dtwDistance < fltMax ∧ a.dtwDistance > acc
    · rw [if_pos h] at hrec ⊢
      rcases hrec with hc | ⟨s, hs, hval, hfin⟩
      · exact Or.inr ⟨a, List.mem_cons_self a l, hc, h.1⟩
      · exact Or.inr ⟨s, List.mem_cons_of_mem a hs, hval, hfin⟩
    · rw [if_neg h] at hrec ⊢
      rcases hrec with hc | ⟨s, hs, hval, hfin⟩
      · exact Or.inl hc
      · exact Or.inr ⟨s, List.mem_cons_of_mem a hs, hval, hfin⟩

/-- Claim C7: in `recognize`, `max_dtw = max(raw_max_dtw, 0.01)` when two
or more candidates are scored and `max_dtw = max(raw_max_dtw, 3.0)` (the
default `max_dtw_floor`) when exactly one is, where `raw_max_dtw` is the
largest finite DTW distance among the scored candidates (it dominates
every finite distance and, whenever some finite distance exists, is
attained by one, given that DTW distances are nonnegative). -/
theorem claim_C7 (scored : List ScoredEntry)
    (h0 : ∀ s ∈ scored, 0 ≤ s.dtwDistance) :
    (2 ≤ scored.length →
      computeMaxDTW defaultConfig scored =
        max (computeRawMaxDTW scored) (1 / 100)) ∧
    (scored.length = 1 →
      computeMaxDTW defaultConfig scored =
        max (computeRawMaxDTW scored) 3) ∧
    (∀ s ∈ scored, s.dtwDistance < fltMax →
      s.dtwDistance ≤ computeRawMaxDTW scored) ∧
    ((∃ s ∈ scored, s.dtwDistance < fltMax) →
      ∃ s ∈ scored, s.dtwDistance < fltMax ∧
        computeRawMaxDTW scored = s.dtwDistance) := by
  refine ⟨?_, ?_, ?_, ?_⟩
  · intro h2
    unfold computeMaxDTW
    rw [if_neg (by omega)]
  · intro h1
    unfold computeMaxDTW
    rw [if_pos (by omega)]
    rfl
  · intro s hs hfin
    exact rawMax_fold_ub scored 0 s hs hfin
  · intro ⟨s, hs, hfin⟩
    rcases rawMax_fold_attained scored 0 with hc | ⟨u, hu, hval, hufin⟩
    · refine ⟨s, hs, hfin, ?_⟩
      have hub := rawMax_fold_ub scored 0 s hs hfin
      have h0s := h0 s hs
      unfold computeRawMaxDTW
      rw [hc]
      unfold computeRawMaxDTW at hub
      rw [hc] at hub
      linarith
    · exact ⟨u, hu, hufin, hval⟩

/-- Claim C7, witness: concrete two-element and one-element scored
lists. -/
theorem claim_C7_witness :
    ((∀ s ∈ [({ entry := {}, dtwDistance := 1 } : ScoredEntry),
              { entry := {}, dtwDistance := 2 }], 0 ≤ s.dtwDistance) ∧
      (2 ≤ ([({ entry := {}, dtwDistance := 1 } : ScoredEntry),
             { entry := {}, dtwDistance := 2 }] : List ScoredEntry).length →
        computeMaxDTW defaultConfig
            [({ entry := {}, dtwDistance := 1 } : ScoredEntry),
             { entry := {}, dtwDistance := 2 }] =
          max (computeRawMaxDTW
            [({ entry := {}, dtwDistance := 1 } : ScoredEntry),
             { entry := {}, dtwDistance := 2 }]) (1 / 100)) ∧
      (([({ entry := {}, dtwDistance := 1 } : ScoredEntry),
         { entry := {}, dtwDistance := 2 }] : List ScoredEntry).length = 1 →
        computeMaxDTW defaultConfig
            [({ entry := {}, dtwDistance := 1 } : ScoredEntry),
             { entry := {}, dtwDistance := 2 }] =
          max (computeRawMaxDTW
            [({ entry := {}, dtwDistance := 1 } : ScoredEntry),
             { entry := {}, dtwDistance := 2 }]) 3) ∧
      (∀ s ∈ [({ entry := {}, dtwDistance := 1 } : ScoredEntry),
              { entry := {}, dtwDistance := 2 }], s.dtwDistance < fltMax →
        s.dtwDistance ≤ computeRawMaxDTW
          [({ entry := {}, dtwDistance := 1 } : ScoredEntry),
           { entry := {}, dtwDistance := 2 }]) ∧
      ((∃ s ∈ [({ entry := {}, dtwDistance := 1 } : ScoredEntry),
               { entry := {}, dtwDistance := 2 }], s.dtwDistance < fltMax) →
        ∃ s ∈ [({ entry := {}, dtwDistance := 1 } : ScoredEntry),
               { entry := {}, dtwDistance := 2 }], s.dtwDistance < fltMax ∧
          computeRawMaxDTW
            [({ entry := {}, dtwDistance := 1 } : ScoredEntry),
             { entry := {}, dtwDistance := 2 }] = s.dtwDistance)) :=
  ⟨by norm_num, claim_C7 _ (by norm_num)⟩

/-! Claims C5 and C6: shape of every `recognize` result. -/

/-- Helper: every scored entry comes from the entry list fed to the
scoring loop. -/
theorem scoreEntries_entry_mem (sqrtQ : ℚ → ℚ) (cfg : ScoringConfig)
    (np : GesturePath) :
    ∀ (l : List DictionaryEntry) (ipg : IPGState) (s : ScoredEntry),
      s ∈ (scoreEntries sqrtQ cfg np l ipg).1 → s.entry ∈ l
  | [], _, s, h => absurd h (by simp [scoreEntries])
  | e :: rest, ipg, s, h => by
    simp only [scoreEntries] at h
    split at h
    · exact List.mem_cons_of_mem e
        (scoreEntries_entry_mem sqrtQ cfg np rest _ s h)
    · rcases List.mem_cons.mp h with rfl | h2
      · exact List.mem_cons_self e rest
      · exact List.mem_cons_of_mem e
          (scoreEntries_entry_mem sqrtQ cfg np rest _ s h2)

/-- Helper: `getAllEntries` only returns stored entries. -/
theorem mem_getAllEntries {st : DictImpl} {x : DictionaryEntry}
    (h : x ∈ getAllEntries st) : x ∈ st.entries := by
  unfold getAllEntries at h
  split at h
  · exact h
  · cases h

/-- Helper: `getEntriesStartingWith` only returns stored entries. -/
theorem mem_getEntriesStartingWith {st : DictImpl} {c : ℕ}
    {x : DictionaryEntry} (h : x ∈ getEntriesStartingWith st c) :
    x ∈ st.entries := by
  unfold getEntriesStartingWith at h
  split at h
  · exact (List.mem_filter.mp h).1
  · cases h

/-- Helper: `getEntriesWithStartEnd` only returns stored entries. -/
theorem mem_getEntriesWithStartEnd {st : DictImpl} {c e : ℕ}
    {x : DictionaryEntry} (h : x ∈ getEntriesWithStartEnd st c e) :
    x ∈ st.entries := by
  unfold getEntriesWithStartEnd at h
  split at h
  · exact (List.mem_filter.mp h).1
  · cases h

/-- Helper: the length pre-filter only keeps entries of its input. -/
theorem mem_lengthFiltered {tol est : ℚ} {l : List DictionaryEntry}
    {x : DictionaryEntry} (h : x ∈ lengthFiltered tol est l) : x ∈ l := by
  unfold lengthFiltered at h
  dsimp only at h
  split at h
  · exact h
  · exact (List.mem_filter.mp h).1

/-- Helper: every candidate entry comes from the dictionary store. -/
theorem mem_candidateEntries {dict : DictImpl} {s e : ℤ}
    {x : DictionaryEntry} (h : x ∈ candidateEntries dict s e) :
    x ∈ dict.entries := by
  have hA : ∀ y, y ∈ getEntriesWithStartEnd dict s.toNat e.toNat →
      y ∈ dict.entries := fun y hy => mem_getEntriesWithStartEnd hy
  have hB : ∀ y, y ∈ getEntriesStartingWith dict s.toNat →
      y ∈ dict.entries := fun y hy => mem_getEntriesStartingWith hy
  have hC : ∀ y, y ∈ getAllEntries dict → y ∈ dict.entries :=
    fun y hy => mem_getAllEntries hy
  unfold candidateEntries at h
  dsimp only at h
  revert h
  generalize getEntriesWithStartEnd dict s.toNat e.toNat = A at hA ⊢
  generalize getEntriesStartingWith dict s.toNat = B at hB ⊢
  generalize getAllEntries dict = C at hC ⊢
  intro h
  repeat' split at h
  all_goals
    first
      | exact hC x h
      | exact hB x h
      | exact hA x h
      | cases h

/-- Helper: every `recognize` result is either empty or the
confidence-sorted, truncated image of scored dictionary entries under
`buildCandidate`. -/
theorem recognize_result_cases (sqrtQ : ℚ → ℚ) (st : EngineState)
    (raw : RawGesturePath) (mcand : ℤ) :
    (recognize sqrtQ st raw mcand).1 = [] ∨
    ∃ results : List GestureCandidate,
      (∀ c ∈ results, ∃ a m : ℚ, ∃ s : ScoredEntry,
        s.entry ∈ st.dictLoader.entries ∧
        c = buildCandidate a m (getMaxFrequency st.dictLoader) s) ∧
      (recognize sqrtQ st raw mcand).1 =
        (sortCandidates results).take
          (max 1 (min mcand MAX_MAX_CANDIDATES)).toNat := by
  unfold recognize
  dsimp only
  split
  · exact Or.inl rfl
  · split
    · exact Or.inl rfl
    · split
      · exact Or.inl rfl
      · split
        · exact Or.inl rfl
        · right
          refine ⟨_, fun c hc => ?_, rfl⟩
          rcases List.mem_map.mp hc with ⟨s, hs, rfl⟩
          refine ⟨_, _, s, ?_, rfl⟩
          have h1 := scoreEntries_entry_mem sqrtQ st.scorerCfg _ _ _ s hs
          exact mem_candidateEntries (mem_lengthFiltered h1)

/-- Claim C5: every `recognize` result has length at most
`clamp(max_candidates, 1, 20)` and its confidences are non-increasing
from front to back. -/
theorem claim_C5 (sqrtQ : ℚ → ℚ) (st : EngineState) (raw : RawGesturePath)
    (mcand : ℤ) :
    ((recognize sqrtQ st raw mcand).1.length : ℤ) ≤ max 1 (min mcand 20) ∧
      List.Sorted (fun a b : ℚ => b ≤ a)
        ((recognize sqrtQ st raw mcand).1.map GestureCandidate.confidence) := by
  have hmax : (0 : ℤ) ≤ max 1 (min mcand 20) :=
    le_trans (by norm_num) (le_max_left 1 (min mcand 20))
  rcases recognize_result_cases sqrtQ st raw mcand with h | ⟨results, _, h⟩
  · rw [h]
    exact ⟨by simp, by simp⟩
  · rw [h]
    constructor
    · have h1 : ((sortCandidates results).take
          (max 1 (min mcand MAX_MAX_CANDIDATES)).toNat).length ≤
          (max 1 (min mcand MAX_MAX_CANDIDATES)).toNat := by
        rw [List.length_take]
        exact min_le_left _ _
      calc ((( sortCandidates results).take
            (max 1 (min mcand MAX_MAX_CANDIDATES)).toNat).length : ℤ)
          ≤ ((max 1 (min mcand MAX_MAX_CANDIDATES)).toNat : ℤ) := by
            exact_mod_cast h1
        _ = max 1 (min mcand 20) := Int.toNat_of_nonneg hmax
    · have hs : List.Sorted candGE (sortCandidates results) :=
        List.sorted_insertionSort candGE results
      have hmap : List.Sorted (fun a b : ℚ => b ≤ a)
          ((sortCandidates results).map GestureCandidate.confidence) :=
        List.Pairwise.map GestureCandidate.confidence (fun _ _ hab => hab) hs
      rw [List.map_take]
      exact List.Pairwise.sublist (List.take_sublist _ _) hmap

/-- Helper: confidence and frequency-score bounds of a single built
candidate, assuming the entry's frequency is dominated by the maximum. -/
theorem buildCandidate_bounds (a m : ℚ) (maxFreq : ℕ) (s : ScoredEntry)
    (hle : s.entry.frequency ≤ maxFreq) :
    0 ≤ (buildCandidate a m maxFreq s).confidence ∧
      (buildCandidate a m maxFreq s).confidence ≤ 1 ∧
      0 ≤ (buildCandidate a m maxFreq s).frequencyScore ∧
      (buildCandidate a m maxFreq s).frequencyScore ≤ 1 := by
  unfold buildCandidate
  dsimp only
  constructor
  · have h1 : max 0 (min 1 ((1 - a) *
        (if m > 0 ∧ s.dtwDistance < fltMax then min 1 (s.dtwDistance / m)
         else 1) + a * (1 - if maxFreq > 0 then
          min 1 ((s.entry.frequency : ℚ) / (maxFreq : ℚ)) else 0))) ≤ 1 :=
      max_le (by norm_num) (min_le_left _ _)
    linarith
  constructor
  · have h1 : (0 : ℚ) ≤ max 0 (min 1 ((1 - a) *
        (if m > 0 ∧ s.dtwDistance < fltMax then min 1 (s.dtwDistance / m)
         else 1) + a * (1 - if maxFreq > 0 then
          min 1 ((s.entry.frequency : ℚ) / (maxFreq : ℚ)) else 0))) :=
      le_max_left 0 _
    linarith
  constructor
  · split
    · positivity
    · exact le_refl 0
  · split
    · rename_i hpos
      rw [div_le_one (by exact_mod_cast hpos)]
      exact_mod_cast hle
    · norm_num

/-- Claim C6: every candidate returned by `recognize` satisfies
`0 ≤ confidence ≤ 1` and `0 ≤ frequency_score ≤ 1`, the latter relying on
the dictionary invariant that `max_frequency` dominates every entry's
frequency (`frequency_score` is an unclamped quotient). -/
theorem claim_C6 (sqrtQ : ℚ → ℚ) (st : EngineState) (raw : RawGesturePath)
    (mcand : ℤ) (hinv : DictInv st.dictLoader) :
    ∀ c ∈ (recognize sqrtQ st raw mcand).1,
      0 ≤ c.confidence ∧ c.confidence ≤ 1 ∧
        0 ≤ c.frequencyScore ∧ c.frequencyScore ≤ 1 := by
  rcases recognize_result_cases sqrtQ st raw mcand with h | ⟨results, hmem, h⟩
  · rw [h]; intro c hc; cases hc
  · rw [h]
    intro c hc
    have hc1 : c ∈ sortCandidates results := List.mem_of_mem_take hc
    have hc2 : c ∈ results :=
      (List.Perm.mem_iff (List.perm_insertionSort candGE results)).mp hc1
    rcases hmem c hc2 with ⟨a, m, s, hsmem, rfl⟩
    exact buildCandidate_bounds a m (getMaxFrequency st.dictLoader) s
      (hinv s.entry hsmem)

/-- Claim C6, witness: the theorem applied to a concrete engine state
whose dictionary invariant holds. -/
theorem claim_C6_witness :
    DictInv ({} : EngineState).dictLoader ∧
      (∀ c ∈ (recognize id {} {} 5).1,
        0 ≤ c.confidence ∧ c.confidence ≤ 1 ∧
          0 ≤ c.frequencyScore ∧ c.frequencyScore ≤ 1) :=
  ⟨by decide, claim_C6 id {} {} 5 (by decide)⟩

/-! Claim C8: the key-transition word-length estimator on clean
synthesized paths. -/

/-- Helper: the estimator loop equals the transition count of the
nearest-key sequence. -/
theorem keyTransLoop_eq (sqrtQ : ℚ → ℚ) (layout : KeyboardLayout) :
    ∀ (pts : List GesturePoint) (prev : ℤ),
      keyTransLoop sqrtQ layout pts prev =
        countTransKeys prev (pts.map (nearestOf sqrtQ layout))
  | [], _ => rfl
  | pt :: rest, prev => by
    simp only [keyTransLoop, countTransKeys, List.map_cons, nearestOf]
    split_ifs with h
    · rw [keyTransLoop_eq sqrtQ layout rest _]
    · rw [keyTransLoop_eq sqrtQ layout rest prev]

/-- Helper: changing the previous-key seed costs at most one
transition. -/
theorem countTrans_shift : ∀ (l : List ℤ) (p q : ℤ),
    countTransKeys p l ≤ 1 + countTransKeys q l
  | [], _, _ => by simp [countTransKeys]
  | x :: l, p, q => by
    simp only [countTransKeys]
    by_cases hp : 0 ≤ x ∧ x ≠ p
    · rw [if_pos hp]
      by_cases hq : 0 ≤ x ∧ x ≠ q
      · rw [if_pos hq]; omega
      · have hxq : x = q := by
          rcases not_and_or.mp hq with h1 | h1
          · exact absurd hp.1 h1
          · exact not_not.mp h1
        rw [if_neg hq, hxq]
    · rw [if_neg hp]
      by_cases hq : 0 ≤ x ∧ x ≠ q
      · rw [if_pos hq]
        have h1 := countTrans_shift l p x
        omega
      · rw [if_neg hq]; exact countTrans_shift l p q

/-- Helper: a subsequence never has more key transitions than the full
sequence, from any seed. -/
theorem countTrans_sublist {s l : List ℤ} (h : s.Sublist l) :
    ∀ p, countTransKeys p s ≤ countTransKeys p l := by
  induction h with
  | slnil => intro p; exact le_refl _
  | cons a _ ih =>
    intro p
    refine le_trans (ih p) ?_
    simp only [countTransKeys]
    by_cases ha : 0 ≤ a ∧ a ≠ p
    · rw [if_pos ha]; exact countTrans_shift _ p a
    · rw [if_neg ha]
  | cons₂ a _ ih =>
    intro p
    simp only [countTransKeys]
    by_cases ha : 0 ≤ a ∧ a ≠ p
    · rw [if_pos ha, if_pos ha]
      have := ih a
      omega
    · rw [if_neg ha, if_neg ha]; exact ih p

/-- Helper: starting from a valid key, the transition count of a
nonnegative key sequence is the collapsed length of the seeded
sequence. -/
theorem countTrans_collapse_aux : ∀ (x : ℤ) (ls : List ℤ),
    (∀ y ∈ ls, 0 ≤ y) →
    1 + countTransKeys x ls = (collapseConsecutive (x :: ls)).length
  | _, [], _ => by simp [countTransKeys, collapseConsecutive]
  | x, y :: t, h => by
    simp only [countTransKeys, collapseConsecutive]
    by_cases hxy : x = y
    · rw [if_neg (by rw [hxy]; simp), if_pos hxy, hxy]
      exact countTrans_collapse_aux y t
        (fun z hz => h z (List.mem_cons_of_mem y hz))
    · rw [if_pos ⟨h y (List.mem_cons_self y t), fun he => hxy he.symm⟩,
        if_neg hxy]
      simp only [List.length_cons]
      have := countTrans_collapse_aux y t
        (fun z hz => h z (List.mem_cons_of_mem y hz))
      omega

/-- Helper: from a negative seed, the transition count of a nonnegative
key sequence is exactly its collapsed length. -/
theorem countTrans_neg_eq (l : List ℤ) (h : ∀ y ∈ l, 0 ≤ y) (p : ℤ)
    (hp : p < 0) :
    countTransKeys p l = (collapseConsecutive l).length := by
  cases l with
  | nil => rfl
  | cons x t =>
    have hx : 0 ≤ x := h x (List.mem_cons_self x t)
    simp only [countTransKeys]
    rw [if_pos ⟨hx, fun he => absurd hp (not_lt.mpr (he ▸ hx))⟩]
    exact countTrans_collapse_aux x t
      (fun y hy => h y (List.mem_cons_of_mem x hy))

/-- Helper: key indices extracted from a word are nonnegative. -/
theorem wordKeySeq_nonneg (layout : KeyboardLayout) (word : List ℕ) :
    ∀ i ∈ wordKeySeq layout word, 0 ≤ i := by
  intro i hi
  unfold wordKeySeq at hi
  rcases List.mem_filterMap.mp hi with ⟨c, _, hsome⟩
  have hsome2 : (if 0 ≤ layout.findKeyByCodePoint (c : ℤ) then
      some (layout.findKeyByCodePoint (c : ℤ)) else none) = some i := hsome
  split at hsome2
  · cases hsome2; assumption
  · cases hsome2

/-- Helper: the helper's key centers are the key sequence mapped through
`keyCenter`. -/
theorem wordCenters_eq (layout : KeyboardLayout) (word : List ℕ) :
    wordCenters layout word = (wordKeySeq layout word).map (keyCenter layout) := by
  unfold wordCenters wordKeySeq
  rw [List.map_filterMap]
  congr 1
  funext c
  dsimp only
  by_cases h : 0 ≤ layout.findKeyByCodePoint (c : ℤ)
  · rw [if_pos h, if_pos h]; rfl
  · rw [if_neg h, if_neg h]; rfl

/-- Helper: the first sample of a segment sits exactly at the segment's
start center. -/
theorem segPoints_head (c0 c1 : ℚ × ℚ) (n : ℕ) (ts : ℤ) :
    segPoints c0 c1 (n + 1) ts =
      ({ x := c0.1, y := c0.2, timestamp := ts } : GesturePoint) ::
        ((List.range n).map (· + 1)).map
          (fun (j : ℕ) =>
            ({ x := c0.1 + (c1.1 - c0.1) * ((j : ℚ) / ((n + 1 : ℕ) : ℚ)),
               y := c0.2 + (c1.2 - c0.2) * ((j : ℚ) / ((n + 1 : ℕ) : ℚ)),
               timestamp := ts + 10 * (j : ℤ) } : GesturePoint)) := by
  unfold segPoints
  rw [List.range_succ_eq_map, List.map_cons]
  congr 1
  dsimp only
  congr 1 <;> norm_num

/-- Helper: a segment contributes at least its sample count to the
loop's output. -/
theorem segsLoop_fst_length (pps : ℕ) (c0 c1 : ℚ × ℚ) (r : List (ℚ × ℚ))
    (ts : ℤ) : pps ≤ (segsLoop pps (c0 :: c1 :: r) ts).1.length := by
  simp [segsLoop, segPoints]

/-- Helper: the word's key sequence embeds (as a sublist) into the
nearest-key sequence of the synthesized samples, provided each key
center is its own nearest key. -/
theorem keySeq_sublist (sqrtQ : ℚ → ℚ) (layout : KeyboardLayout) (n : ℕ) :
    ∀ (ks : List ℤ), ks ≠ [] →
    (∀ i ∈ ks, layout.findNearestKey sqrtQ (keyCenter layout i).1
      (keyCenter layout i).2 = i) →
    ∀ ts : ℤ,
    ks.Sublist ((((segsLoop (n + 1) (ks.map (keyCenter layout)) ts).1) ++
      [({ x := ((ks.map (keyCenter layout)).getLastD (0, 0)).1,
          y := ((ks.map (keyCenter layout)).getLastD (0, 0)).2,
          timestamp := (segsLoop (n + 1) (ks.map (keyCenter layout)) ts).2 } :
            GesturePoint)]).map
        (nearestOf sqrtQ layout))
  | [], hne, _, _ => absurd rfl hne
  | [x], _, hk, ts => by
    have hx := hk x (List.mem_cons_self x [])
    have hhead : nearestOf sqrtQ layout
        ({ x := (keyCenter layout x).1, y := (keyCenter layout x).2,
           timestamp := ts } : GesturePoint) = x := by
      simpa only [nearestOf] using hx
    simp only [List.map_cons, List.map_nil, segsLoop, List.nil_append,
      List.getLastD_cons, List.getLastD_nil, hhead]
    exact List.Sublist.refl [x]
  | x :: y :: t, _, hk, ts => by
    have hk1 : ∀ i ∈ y :: t, layout.findNearestKey sqrtQ
        (keyCenter layout i).1 (keyCenter layout i).2 = i :=
      fun i hi => hk i (List.mem_cons_of_mem x hi)
    have ihsub := keySeq_sublist sqrtQ layout n (y :: t) (by simp) hk1
      (ts + 10 * ((n + 1 : ℕ) : ℤ))
    have hx := hk x (List.mem_cons_self x (y :: t))
    have hhead : nearestOf sqrtQ layout
        ({ x := (keyCenter layout x).1, y := (keyCenter layout x).2,
           timestamp := ts } : GesturePoint) = x := by
      simpa only [nearestOf] using hx
    simp only [List.map_cons, segsLoop,
      segPoints_head (keyCenter layout x) (keyCenter layout y) n ts,
      List.cons_append, List.append_assoc, List.getLastD_cons, hhead]
    refine List.Sublist.cons₂ x ?_
    rw [List.map_append]
    refine List.Sublist.trans ?_ (List.sublist_append_right _ _)
    simpa only [List.map_cons, List.getLastD_cons] using ihsub

/-- Claim C8, counterexample: on the three-key layout (keys a, b, c at
x = 0, 10, 20), the clean synthesized path for "ac" (8 points per
segment) visits k = 2 distinct keys, but the estimator returns 3: the
straight segment passes nearer to the middle key b.  (`sqrtQ = id` is
order-preserving on the squared distances, so the nearest-key decisions
match the real `std::sqrt` code.) -/
theorem claim_C8_counterexample :
    (collapseConsecutive (wordKeySeq threeKeyLayout [97, 99])).length = 2 ∧
      estimateWordLengthByKeyTransitions id threeKeyLayout
        { points := makePathForWord threeKeyLayout [97, 99] 8 } = 3 := by
  constructor
  · decide
  · have hc : wordCenters threeKeyLayout [97, 99] = [(0, 0), (20, 0)] := by
      decide
    have h97 : keyCenter threeKeyLayout
        (threeKeyLayout.findKeyByCodePoint 97) = (0, 0) := by decide
    have h99 : keyCenter threeKeyLayout
        (threeKeyLayout.findKeyByCodePoint 99) = (20, 0) := by decide
    have hpath : makePathForWord threeKeyLayout [97, 99] 8 =
        [{ x := 0, y := 0, timestamp := 0 },
         { x := 5 / 2, y := 0, timestamp := 10 },
         { x := 5, y := 0, timestamp := 20 },
         { x := 15 / 2, y := 0, timestamp := 30 },
         { x := 10, y := 0, timestamp := 40 },
         { x := 25 / 2, y := 0, timestamp := 50 },
         { x := 15, y := 0, timestamp := 60 },
         { x := 35 / 2, y := 0, timestamp := 70 },
         { x := 20, y := 0, timestamp := 80 }] := by
      norm_num [makePathForWord, hc, h97, h99, segsLoop, segPoints,
        List.range_succ]
    rw [hpath]
    norm_num [estimateWordLengthByKeyTransitions, keyTransLoop,
      KeyboardLayout.findNearestKey, findNearestKeyAux, threeKeyLayout,
      List.enum, fltMax, KeyDescriptor.isCharacterKey]

/-- Claim C8 (amended): the estimator counts distinct consecutive
nearest-keys along the raw points (a key transition increments the
count, repeated keys do not); on a clean synthesized path for a word
visiting `k` distinct keys it returns at least `k` — but it can
over-count (never under-count), because straight segments may pass
nearer to intermediate keys, as the counterexample shows.  The
hypothesis asks that each key center of the word be its own nearest
key. -/
theorem claim_C8_amended (sqrtQ : ℚ → ℚ) (layout : KeyboardLayout)
    (word : List ℕ) (pps : ℕ) (hpps : 1 ≤ pps)
    (hlen : 2 ≤ (wordKeySeq layout word).length)
    (hk : ∀ i ∈ wordKeySeq layout word,
      layout.findNearestKey sqrtQ (keyCenter layout i).1
        (keyCenter layout i).2 = i) :
    estimateWordLengthByKeyTransitions sqrtQ layout
        { points := makePathForWord layout word pps } =
      max 1 ((countTransKeys (-1)
        ((makePathForWord layout word pps).map (nearestOf sqrtQ layout)) : ℕ) : ℚ) ∧
    (((collapseConsecutive (wordKeySeq layout word)).length : ℕ) : ℚ) ≤
      estimateWordLengthByKeyTransitions sqrtQ layout
        { points := makePathForWord layout word pps } := by
  obtain ⟨n, rfl⟩ : ∃ n, pps = n + 1 := ⟨pps - 1, by omega⟩
  have hwne : ¬ word.isEmpty = true := by
    intro h
    rw [List.isEmpty_iff.mp h] at hlen
    simp [wordKeySeq] at hlen
  have hksne : wordKeySeq layout word ≠ [] := by
    intro h; rw [h] at hlen; simp at hlen
  have hcent := wordCenters_eq layout word
  have hcne : ¬ (wordCenters layout word).isEmpty = true := by
    rw [hcent]
    simp [hksne]
  have hpath : makePathForWord layout word (n + 1) =
      (segsLoop (n + 1) ((wordKeySeq layout word).map (keyCenter layout)) 0).1 ++
      [{ x := (((wordKeySeq layout word).map (keyCenter layout)).getLastD (0, 0)).1,
         y := (((wordKeySeq layout word).map (keyCenter layout)).getLastD (0, 0)).2,
         timestamp :=
           (segsLoop (n + 1) ((wordKeySeq layout word).map (keyCenter layout)) 0).2 }] := by
    unfold makePathForWord
    rw [if_neg hwne, if_neg hcne, hcent]
  have hlen2 : 2 ≤ (makePathForWord layout word (n + 1)).length := by
    rw [hpath]
    rcases List.exists_cons_of_ne_nil hksne with ⟨k0, ks1, hks⟩
    have hks1ne : ks1 ≠ [] := by
      intro h; rw [hks, h] at hlen; simp at hlen
    rcases List.exists_cons_of_ne_nil hks1ne with ⟨k1, ks2, hks1⟩
    rw [hks, hks1]
    simp only [List.map_cons, List.length_append, List.length_cons]
    have := segsLoop_fst_length (n + 1) (keyCenter layout k0)
      (keyCenter layout k1) (ks2.map (keyCenter layout)) 0
    omega
  have hest : estimateWordLengthByKeyTransitions sqrtQ layout
      { points := makePathForWord layout word (n + 1) } =
      max 1 ((countTransKeys (-1)
        ((makePathForWord layout word (n + 1)).map (nearestOf sqrtQ layout)) : ℕ) : ℚ) := by
    unfold estimateWordLengthByKeyTransitions
    rw [if_neg (by dsimp only; omega)]
    rw [keyTransLoop_eq]
  refine ⟨hest, ?_⟩
  have hsub : (wordKeySeq layout word).Sublist
      ((makePathForWord layout word (n + 1)).map (nearestOf sqrtQ layout)) := by
    rw [hpath]
    exact keySeq_sublist sqrtQ layout n (wordKeySeq layout word) hksne hk 0
  have h1 : countTransKeys (-1) (wordKeySeq layout word) ≤
      countTransKeys (-1)
        ((makePathForWord layout word (n + 1)).map (nearestOf sqrtQ layout)) :=
    countTrans_sublist hsub (-1)
  have h2 : countTransKeys (-1) (wordKeySeq layout word) =
      (collapseConsecutive (wordKeySeq layout word)).length :=
    countTrans_neg_eq _ (wordKeySeq_nonneg layout word) (-1) (by norm_num)
  rw [hest]
  refine le_trans ?_ (le_max_right 1 _)
  rw [← h2]
  exact_mod_cast h1

/-- Helper: on the three-key layout, each key center of "ab" is its own
nearest key under the identity square-root model. -/
theorem threeKey_centers_nearest :
    ∀ i ∈ wordKeySeq threeKeyLayout [97, 98],
      threeKeyLayout.findNearestKey id (keyCenter threeKeyLayout i).1
        (keyCenter threeKeyLayout i).2 = i := by
  intro i hi
  rw [show wordKeySeq threeKeyLayout [97, 98] = [0, 1] from by decide] at hi
  fin_cases hi
  · rw [show keyCenter threeKeyLayout 0 = (0, 0) from by decide]
    norm_num [KeyboardLayout.findNearestKey, findNearestKeyAux,
      threeKeyLayout, List.enum, fltMax, KeyDescriptor.isCharacterKey]
  · rw [show keyCenter threeKeyLayout 1 = (10, 0) from by decide]
    norm_num [KeyboardLayout.findNearestKey, findNearestKeyAux,
      threeKeyLayout, List.enum, fltMax, KeyDescriptor.isCharacterKey]

/-- Claim C8 (amended), witness: at the three-key layout with the word
"ab", the hypotheses hold and the estimator dominates k = 2. -/
theorem claim_C8_amended_witness :
    (2 ≤ (wordKeySeq threeKeyLayout [97, 98]).length) ∧
      ((((collapseConsecutive (wordKeySeq threeKeyLayout [97, 98])).length : ℕ) : ℚ) ≤
        estimateWordLengthByKeyTransitions id threeKeyLayout
          { points := makePathForWord threeKeyLayout [97, 98] 8 }) :=
  ⟨by decide,
   (claim_C8_amended id threeKeyLayout [97, 98] 8 (by norm_num) (by decide)
     threeKey_centers_nearest).2⟩

/-! Claim C9: symmetry of the banded rolling-row DTW.  In the exact
rational model the two evaluation orders produce identical accumulated
costs, so the distance is exactly symmetric (the spec's 1e-4 tolerance
only covers float rounding). -/

/-- Helper: the pairwise cost is symmetric under swapping the paths and
transposing the indices. -/
theorem dtwCost_symm (sqrtQ : ℚ → ℚ) (A B : List NormalizedPoint)
    (i j : ℕ) : dtwCost sqrtQ A B i j = dtwCost sqrtQ B A j i := by
  unfold dtwCost pointDistance
  congr 1
  ring

/-- Helper: the guarded three-way minimum is symmetric in its first two
arguments. -/
theorem dtwBest3_comm (x y z : ℚ) : dtwBest3 x y z = dtwBest3 y x z := by
  unfold dtwBest3
  by_cases hx : x < fltMax <;> by_cases hy : y < fltMax <;>
    by_cases hz : z < fltMax <;>
  simp [hx, hy, hz, min_comm, min_assoc, min_left_comm, min_eq_right,
    le_of_lt]

/-- Helper: the DTW matrix computed by the rolling rows is symmetric
under transposition within the 64×64 matrix. -/
theorem dtwRows_symm (sqrtQ : ℚ → ℚ) (W : ℕ) :
    ∀ (n : ℕ) (A B : List NormalizedPoint) (i j : ℕ), i + j = n →
      i ≤ RESAMPLE_COUNT - 1 → j ≤ RESAMPLE_COUNT - 1 →
      dtwRows sqrtQ A B W i j = dtwRows sqrtQ B A W j i := by
  intro n
  induction n using Nat.strong_induction_on with
  | _ n ih =>
    intro A B i j hn hi hj
    match i, j with
    | 0, 0 =>
      show dtwRow0 sqrtQ A B W 0 = dtwRow0 sqrtQ B A W 0
      simp only [dtwRow0]
      exact dtwCost_symm sqrtQ A B 0 0
    | 0, j + 1 =>
      have hj2 : j + 1 ≤ 63 := by simpa [RESAMPLE_COUNT] using hj
      have hIH : dtwRows sqrtQ B A W j 0 = dtwRow0 sqrtQ A B W j :=
        (ih (0 + j) (by omega) A B 0 j rfl (by omega) (by
          simp only [RESAMPLE_COUNT]; omega)).symm
      have hc : (j + 1 ≤ min W (RESAMPLE_COUNT - 1)) ↔ (j + 1 - W ≤ 0) := by
        simp only [RESAMPLE_COUNT]
        omega
      show dtwRow0 sqrtQ A B W (j + 1) =
        dtwRowStep sqrtQ B A W (dtwRows sqrtQ B A W j) (j + 1) 0
      simp only [dtwRow0, dtwRowStep]
      rw [hIH, dtwCost_symm sqrtQ A B 0 (j + 1)]
      simp only [hc]
      split_ifs <;> first | rfl | apply add_comm
    | i + 1, 0 =>
      have hi2 : i + 1 ≤ 63 := by simpa [RESAMPLE_COUNT] using hi
      have hIH : dtwRows sqrtQ A B W i 0 = dtwRow0 sqrtQ B A W i :=
        ih (i + 0) (by omega) A B i 0 rfl (by
          simp only [RESAMPLE_COUNT]; omega) (by omega)
      have hc : (i + 1 - W ≤ 0) ↔ (i + 1 ≤ min W (RESAMPLE_COUNT - 1)) := by
        simp only [RESAMPLE_COUNT]
        omega
      show dtwRowStep sqrtQ A B W (dtwRows sqrtQ A B W i) (i + 1) 0 =
        dtwRow0 sqrtQ B A W (i + 1)
      simp only [dtwRow0, dtwRowStep]
      rw [hIH, dtwCost_symm sqrtQ A B (i + 1) 0]
      simp only [hc]
      split_ifs <;> first | rfl | apply add_comm
    | i + 1, j + 1 =>
      have hi2 : i + 1 ≤ 63 := by simpa [RESAMPLE_COUNT] using hi
      have hj2 : j + 1 ≤ 63 := by simpa [RESAMPLE_COUNT] using hj
      have hUp : dtwRows sqrtQ A B W i (j + 1) =
          dtwRows sqrtQ B A W (j + 1) i :=
        ih (i + (j + 1)) (by omega) A B i (j + 1) rfl (by
          simp only [RESAMPLE_COUNT]; omega) hj
      have hLeft : dtwRowStep sqrtQ A B W (dtwRows sqrtQ A B W i)
          (i + 1) j = dtwRows sqrtQ B A W j (i + 1) :=
        ih ((i + 1) + j) (by omega) A B (i + 1) j rfl hi (by
          simp only [RESAMPLE_COUNT]; omega)
      have hDiag : dtwRows sqrtQ A B W i j = dtwRows sqrtQ B A W j i :=
        ih (i + j) (by omega) A B i j rfl (by
          simp only [RESAMPLE_COUNT]; omega) (by
          simp only [RESAMPLE_COUNT]; omega)
      have hRstep : dtwRowStep sqrtQ B A W (dtwRows sqrtQ B A W j)
          (j + 1) i = dtwRows sqrtQ B A W (j + 1) i := rfl
      have hcond : (i + 1 - W ≤ j + 1 ∧
            j + 1 ≤ min (RESAMPLE_COUNT - 1) (i + 1 + W)) ↔
          (j + 1 - W ≤ i + 1 ∧
            i + 1 ≤ min (RESAMPLE_COUNT - 1) (j + 1 + W)) := by
        simp only [RESAMPLE_COUNT]
        omega
      show dtwRowStep sqrtQ A B W (dtwRows sqrtQ A B W i) (i + 1) (j + 1) =
        dtwRowStep sqrtQ B A W (dtwRows sqrtQ B A W j) (j + 1) (i + 1)
      simp only [dtwRowStep]
      rw [hLeft, hUp, hDiag, hRstep,
        dtwCost_symm sqrtQ A B (i + 1) (j + 1),
        dtwBest3_comm (dtwRows sqrtQ B A W (j + 1) i)
          (dtwRows sqrtQ B A W j (i + 1)) (dtwRows sqrtQ B A W j i)]
      simp only [hcond]

/-- Claim C9: DTW distance is symmetric — for every pair of paths (in
particular 64-point normalized paths) and every configuration,
`computeDTWDistance(A, B) = computeDTWDistance(B, A)` exactly in the
rational model, hence within the claim's 1e-4 tolerance; this holds
despite the banded two-rolling-row evaluation whose first row is filled
by cumulative right-moves. -/
theorem claim_C9 (sqrtQ : ℚ → ℚ) (cfg : ScoringConfig)
    (A B : GesturePath) :
    computeDTWDistance sqrtQ cfg A B = computeDTWDistance sqrtQ cfg B A ∧
      |computeDTWDistance sqrtQ cfg A B -
        computeDTWDistance sqrtQ cfg B A| ≤ 1 / 10000 := by
  have hsym : computeDTWDistance sqrtQ cfg A B =
      computeDTWDistance sqrtQ cfg B A := by
    unfold computeDTWDistance
    by_cases hA : A.points.length = RESAMPLE_COUNT
    · by_cases hB : B.points.length = RESAMPLE_COUNT
      · have hcA : ¬(A.points.length ≠ RESAMPLE_COUNT ∨
            B.points.length ≠ RESAMPLE_COUNT) := by simp [hA, hB]
        have hcB : ¬(B.points.length ≠ RESAMPLE_COUNT ∨
            A.points.length ≠ RESAMPLE_COUNT) := by simp [hA, hB]
        have h := dtwRows_symm sqrtQ (dtwBandWidth cfg)
          ((RESAMPLE_COUNT - 1) + (RESAMPLE_COUNT - 1)) A.points B.points
          (RESAMPLE_COUNT - 1) (RESAMPLE_COUNT - 1) rfl (le_refl _)
          (le_refl _)
        rw [if_neg hcA, if_neg hcB]
        simp only [h]
      · rw [if_pos (Or.inr hB), if_pos (Or.inl hB)]
    · rw [if_pos (Or.inl hA), if_pos (Or.inr hA)]
  exact ⟨hsym, by rw [hsym]; simp⟩

end Swipetype
